import Mathlib

/-!
Verification of the bilateral nearest-neighbour operator of
`vvn/ops/src/tf_nndistance_2.cpp` (CPU kernels `NnDistance2Op::Compute` and
`NnDistance2GradOp::Compute`, helper `nnsearch`).

Tensors are modelled as a shape (list of dimension sizes) together with a flat
row-major data buffer, exactly as TensorFlow hands them to the kernel.
Coordinate arithmetic of the C++ code is modelled over `ℚ`: the functional
claims treat arithmetic as exact.  A separate refinement model of IEEE
binary floating point (`rnd`, `dist6F`) is used for the one claim that is
about numeric precision.  Fallible kernel entry points (`OP_REQUIRES`
aborting `Compute`) are modelled with `Except String`.
-/

/-- A tensor as the TensorFlow kernel sees it: a shape and a flat row-major
data buffer.  `shape` corresponds to `tensor.shape()`, `data` to
`tensor.flat<...>()`. -/
structure T (α : Type) where
  shape : List ℕ
  data : List α
deriving DecidableEq

/-- `dim t k` models `tensor.shape().dim_size(k)`. -/
def dim (t : T α) (k : ℕ) : ℕ := t.shape.getD k 0

instance {ε α : Type} [DecidableEq ε] [DecidableEq α] : DecidableEq (Except ε α) := fun x y =>
  match x, y with
  | .error a, .error b => decidable_of_iff (a = b) (by simp)
  | .ok a, .ok b => decidable_of_iff (a = b) (by simp)
  | .error _, .ok _ => isFalse (by simp)
  | .ok _, .error _ => isFalse (by simp)

/-- The squared 6-D distance computed by the inner loop of `nnsearch`
(tf_nndistance_2.cpp lines 26-41), arithmetic taken exact: the six
coordinates of point `j` of set 1 are read at flat offsets
`(i*n+j)*6+c`, the candidate point `k` of set 2 at `(i*m+k)*6+c`;
each difference `x2 = xyz2[...] - x1` is squared and the six squares are
summed. -/
def sqd6 (xyz1 xyz2 : List ℚ) (n m i j k : ℕ) : ℚ :=
  let x1 := xyz1.getD ((i*n+j)*6+0) 0
  let y1 := xyz1.getD ((i*n+j)*6+1) 0
  let z1 := xyz1.getD ((i*n+j)*6+2) 0
  let x1_1 := xyz1.getD ((i*n+j)*6+3) 0
  let y1_1 := xyz1.getD ((i*n+j)*6+4) 0
  let z1_1 := xyz1.getD ((i*n+j)*6+5) 0
  let x2 := xyz2.getD ((i*m+k)*6+0) 0 - x1
  let y2 := xyz2.getD ((i*m+k)*6+1) 0 - y1
  let z2 := xyz2.getD ((i*m+k)*6+2) 0 - z1
  let x2_1 := xyz2.getD ((i*m+k)*6+3) 0 - x1_1
  let y2_1 := xyz2.getD ((i*m+k)*6+4) 0 - y1_1
  let z2_1 := xyz2.getD ((i*m+k)*6+5) 0 - z1_1
  x2*x2 + y2*y2 + z2*z2 + x2_1*x2_1 + y2_1*y2_1 + z2_1*z2_1

/-- The candidate scan of `nnsearch` (lines 32-46): state `(best, besti)`
starts as `(0, 0)`; iteration `k` replaces it by `(d k, k)` exactly when
`k == 0 || d k < best`.  `nnScan d t` is the state after iterations
`0, 1, ..., t-1`. -/
def nnScan (d : ℕ → ℚ) : ℕ → ℚ × ℕ
  | 0 => (0, 0)
  | t+1 =>
    let s := nnScan d t
    if t = 0 ∨ d t < s.1 then (d t, t) else s

/-- `nnsearch` (lines 23-51).  The C writes `dist[i*n+j]` and `idx[i*n+j]`
for every `i < b`, `j < n`; the flat output position `p = i*n+j` hence
carries the result for batch `p / n`, point `p % n`.  The index is stored
as `int32`, modelled as `ℤ`. -/
def nnsearch (b n m : ℕ) (xyz1 xyz2 : List ℚ) : List ℚ × List ℤ :=
  ((List.range (b*n)).map fun p => (nnScan (sqd6 xyz1 xyz2 n m (p / n) (p % n)) m).1,
   (List.range (b*n)).map fun p => ((nnScan (sqd6 xyz1 xyz2 n m (p / n) (p % n)) m).2 : ℤ))

/-- `NnDistance2Op::Compute` (lines 56-89): the five `OP_REQUIRES` shape
checks in source order, then the two `nnsearch` calls filling the four
outputs `dist1 [b,n]`, `idx1 [b,n]`, `dist2 [b,m]`, `idx2 [b,m]`.
A failed check aborts the kernel before any output is allocated, modelled
as `Except.error` with the source's message. -/
def computeForward (xyz1 xyz2 : T ℚ) :
    Except String (T ℚ × T ℤ × T ℚ × T ℤ) :=
  if xyz1.shape.length ≠ 3 then
    .error "NnDistance requires xyz1 be of shape (batch,#points,6)"
  else if xyz1.shape.getD 2 0 ≠ 6 then
    .error "NnDistance only accepts 6d point set xyz1"
  else if xyz2.shape.length ≠ 3 then
    .error "NnDistance requires xyz2 be of shape (batch,#points,6)"
  else if xyz2.shape.getD 2 0 ≠ 6 then
    .error "NnDistance only accepts 6d point set xyz2"
  else if xyz2.shape.getD 0 0 ≠ xyz1.shape.getD 0 0 then
    .error "NnDistance expects xyz1 and xyz2 have same batch size"
  else
    .ok (⟨[dim xyz1 0, dim xyz1 1],
            (nnsearch (dim xyz1 0) (dim xyz1 1) (dim xyz2 1) xyz1.data xyz2.data).1⟩,
         ⟨[dim xyz1 0, dim xyz1 1],
            (nnsearch (dim xyz1 0) (dim xyz1 1) (dim xyz2 1) xyz1.data xyz2.data).2⟩,
         ⟨[dim xyz1 0, dim xyz2 1],
            (nnsearch (dim xyz1 0) (dim xyz2 1) (dim xyz1 1) xyz2.data xyz1.data).1⟩,
         ⟨[dim xyz1 0, dim xyz2 1],
            (nnsearch (dim xyz1 0) (dim xyz2 1) (dim xyz1 1) xyz2.data xyz1.data).2⟩)

/-- A raw read `buf[p]` of the backward pass where `p` may be driven by an
`int32` index value.  In the C code an out-of-range `p` is an out-of-bounds
pointer access (undefined behaviour); the model returns `0` there, and the
out-of-bounds positions themselves are tracked by `g1WritePositions` /
`g2WritePositions` (claim C10). -/
def readZ (l : List ℚ) (p : ℤ) : ℚ := if 0 ≤ p then l.getD p.toNat 0 else 0

/-- A raw in-place accumulation `buf[p] += v`.  Out-of-range `p` (undefined
behaviour in the C code) leaves the modelled buffer unchanged. -/
def updZ (l : List ℚ) (p : ℤ) (v : ℚ) : List ℚ :=
  if 0 ≤ p then l.set p.toNat (l.getD p.toNat 0 + v) else l

/-- A sequence of in-place accumulations, applied in program order. -/
def applyUpds (l : List ℚ) (us : List (ℤ × ℚ)) : List ℚ :=
  us.foldl (fun acc u => updZ acc u.1 u.2) l

/-- The value `g*(x1_c - x2_c)` of the A→B gradient pass
(tf_nndistance_2.cpp lines 140-159): `g = grad_dist1[i*n+j]*2`, source
coordinate `xyz1[(i*n+j)*6+c]`, matched coordinate
`xyz2[(i*m+j2)*6+c]` with `j2 = idx1[i*n+j]`. -/
def pass1Val (n m : ℕ) (x1 x2 gd1 : List ℚ) (id1 : List ℤ) (i j c : ℕ) : ℚ :=
  gd1.getD (i*n+j) 0 * 2 *
    (x1.getD ((i*n+j)*6+c) 0 - readZ x2 ((((i*m : ℕ) : ℤ) + id1.getD (i*n+j) 0) * 6 + (c : ℤ)))

/-- The value `g*(x1_c - x2_c)` of the B→A gradient pass (lines 167-187):
`g = grad_dist2[i*m+j]*2`, source coordinate `xyz2[(i*m+j)*6+c]`, matched
coordinate `xyz1[(i*n+j2)*6+c]` with `j2 = idx2[i*m+j]`. -/
def pass2Val (n m : ℕ) (x1 x2 gd2 : List ℚ) (id2 : List ℤ) (i j c : ℕ) : ℚ :=
  gd2.getD (i*m+j) 0 * 2 *
    (x2.getD ((i*m+j)*6+c) 0 - readZ x1 ((((i*n : ℕ) : ℤ) + id2.getD (i*m+j) 0) * 6 + (c : ℤ)))

/-- Lines 154-159: the six writes `grad_xyz1[(i*n+j)*6+c] += g*(..)`,
`c = 0..5`, in program order. -/
def upds_g1_direct (n m : ℕ) (x1 x2 gd1 : List ℚ) (id1 : List ℤ) (i j : ℕ) : List (ℤ × ℚ) :=
  [((((i*n+j)*6+0 : ℕ) : ℤ), pass1Val n m x1 x2 gd1 id1 i j 0),
   ((((i*n+j)*6+1 : ℕ) : ℤ), pass1Val n m x1 x2 gd1 id1 i j 1),
   ((((i*n+j)*6+2 : ℕ) : ℤ), pass1Val n m x1 x2 gd1 id1 i j 2),
   ((((i*n+j)*6+3 : ℕ) : ℤ), pass1Val n m x1 x2 gd1 id1 i j 3),
   ((((i*n+j)*6+4 : ℕ) : ℤ), pass1Val n m x1 x2 gd1 id1 i j 4),
   ((((i*n+j)*6+5 : ℕ) : ℤ), pass1Val n m x1 x2 gd1 id1 i j 5)]

/-- Lines 160-165: the six writes `grad_xyz2[(i*m+j2)*6+c] -= g*(..)` with
`j2 = idx1[i*n+j]` taken directly from the (untrusted) `int32` input. -/
def upds_g2_scatter (n m : ℕ) (x1 x2 gd1 : List ℚ) (id1 : List ℤ) (i j : ℕ) : List (ℤ × ℚ) :=
  [((((i*m : ℕ) : ℤ) + id1.getD (i*n+j) 0) * 6 + 0, -pass1Val n m x1 x2 gd1 id1 i j 0),
   ((((i*m : ℕ) : ℤ) + id1.getD (i*n+j) 0) * 6 + 1, -pass1Val n m x1 x2 gd1 id1 i j 1),
   ((((i*m : ℕ) : ℤ) + id1.getD (i*n+j) 0) * 6 + 2, -pass1Val n m x1 x2 gd1 id1 i j 2),
   ((((i*m : ℕ) : ℤ) + id1.getD (i*n+j) 0) * 6 + 3, -pass1Val n m x1 x2 gd1 id1 i j 3),
   ((((i*m : ℕ) : ℤ) + id1.getD (i*n+j) 0) * 6 + 4, -pass1Val n m x1 x2 gd1 id1 i j 4),
   ((((i*m : ℕ) : ℤ) + id1.getD (i*n+j) 0) * 6 + 5, -pass1Val n m x1 x2 gd1 id1 i j 5)]

/-- Lines 182-187: the six writes `grad_xyz2[(i*m+j)*6+c] += g*(..)`. -/
def upds_g2_direct (n m : ℕ) (x1 x2 gd2 : List ℚ) (id2 : List ℤ) (i j : ℕ) : List (ℤ × ℚ) :=
  [((((i*m+j)*6+0 : ℕ) : ℤ), pass2Val n m x1 x2 gd2 id2 i j 0),
   ((((i*m+j)*6+1 : ℕ) : ℤ), pass2Val n m x1 x2 gd2 id2 i j 1),
   ((((i*m+j)*6+2 : ℕ) : ℤ), pass2Val n m x1 x2 gd2 id2 i j 2),
   ((((i*m+j)*6+3 : ℕ) : ℤ), pass2Val n m x1 x2 gd2 id2 i j 3),
   ((((i*m+j)*6+4 : ℕ) : ℤ), pass2Val n m x1 x2 gd2 id2 i j 4),
   ((((i*m+j)*6+5 : ℕ) : ℤ), pass2Val n m x1 x2 gd2 id2 i j 5)]

/-- Lines 188-193: the six writes `grad_xyz1[(i*n+j2)*6+c] -= g*(..)` with
`j2 = idx2[i*m+j]`. -/
def upds_g1_scatter (n m : ℕ) (x1 x2 gd2 : List ℚ) (id2 : List ℤ) (i j : ℕ) : List (ℤ × ℚ) :=
  [((((i*n : ℕ) : ℤ) + id2.getD (i*m+j) 0) * 6 + 0, -pass2Val n m x1 x2 gd2 id2 i j 0),
   ((((i*n : ℕ) : ℤ) + id2.getD (i*m+j) 0) * 6 + 1, -pass2Val n m x1 x2 gd2 id2 i j 1),
   ((((i*n : ℕ) : ℤ) + id2.getD (i*m+j) 0) * 6 + 2, -pass2Val n m x1 x2 gd2 id2 i j 2),
   ((((i*n : ℕ) : ℤ) + id2.getD (i*m+j) 0) * 6 + 3, -pass2Val n m x1 x2 gd2 id2 i j 3),
   ((((i*n : ℕ) : ℤ) + id2.getD (i*m+j) 0) * 6 + 4, -pass2Val n m x1 x2 gd2 id2 i j 4),
   ((((i*n : ℕ) : ℤ) + id2.getD (i*m+j) 0) * 6 + 5, -pass2Val n m x1 x2 gd2 id2 i j 5)]

/-- The gradient loops of `NnDistance2GradOp::Compute` (lines 134-195):
both output buffers are zero-filled (lines 134-137), then for each batch
`i` the A→B pass runs over `j < n` and the B→A pass over `j < m`; each
iteration performs its six `grad_xyz1` writes and six `grad_xyz2` writes
in program order (the two buffers are disjoint, so pairing the
per-iteration writes per buffer is exact). -/
def gradCore (b n m : ℕ) (x1 x2 gd1 : List ℚ) (id1 : List ℤ) (gd2 : List ℚ) (id2 : List ℤ) :
    List ℚ × List ℚ :=
  (List.range b).foldl
    (fun g i =>
      (List.range m).foldl
        (fun g j => (applyUpds g.1 (upds_g1_scatter n m x1 x2 gd2 id2 i j),
                     applyUpds g.2 (upds_g2_direct n m x1 x2 gd2 id2 i j)))
        ((List.range n).foldl
          (fun g j => (applyUpds g.1 (upds_g1_direct n m x1 x2 gd1 id1 i j),
                       applyUpds g.2 (upds_g2_scatter n m x1 x2 gd1 id1 i j))) g))
    (List.replicate (b*n*6) 0, List.replicate (b*m*6) 0)

/-- `NnDistance2GradOp::Compute` (lines 95-196): the nine `OP_REQUIRES`
shape checks in source order, then the zero-fill and the two gradient
passes producing `grad_xyz1 [b,n,6]` and `grad_xyz2 [b,m,6]`. -/
def computeBackward (xyz1 xyz2 grad_dist1 : T ℚ) (idx1 : T ℤ) (grad_dist2 : T ℚ)
    (idx2 : T ℤ) : Except String (T ℚ × T ℚ) :=
  if xyz1.shape.length ≠ 3 then
    .error "NnDistance requires xyz1 be of shape (batch,#points,6)"
  else if xyz1.shape.getD 2 0 ≠ 6 then
    .error "NnDistance only accepts 6d point set xyz1"
  else if xyz2.shape.length ≠ 3 then
    .error "NnDistance requires xyz2 be of shape (batch,#points,6)"
  else if xyz2.shape.getD 2 0 ≠ 6 then
    .error "NnDistance only accepts 6d point set xyz2"
  else if xyz2.shape.getD 0 0 ≠ xyz1.shape.getD 0 0 then
    .error "NnDistance expects xyz1 and xyz2 have same batch size"
  else if grad_dist1.shape ≠ [dim xyz1 0, dim xyz1 1] then
    .error "NnDistanceGrad requires grad_dist1 be of shape(batch,#points)"
  else if idx1.shape ≠ [dim xyz1 0, dim xyz1 1] then
    .error "NnDistanceGrad requires idx1 be of shape(batch,#points)"
  else if grad_dist2.shape ≠ [dim xyz1 0, dim xyz2 1] then
    .error "NnDistanceGrad requires grad_dist2 be of shape(batch,#points)"
  else if idx2.shape ≠ [dim xyz1 0, dim xyz2 1] then
    .error "NnDistanceGrad requires idx2 be of shape(batch,#points)"
  else
    .ok (⟨[dim xyz1 0, dim xyz1 1, 6],
            (gradCore (dim xyz1 0) (dim xyz1 1) (dim xyz2 1) xyz1.data xyz2.data
              grad_dist1.data idx1.data grad_dist2.data idx2.data).1⟩,
         ⟨[dim xyz1 0, dim xyz2 1, 6],
            (gradCore (dim xyz1 0) (dim xyz1 1) (dim xyz2 1) xyz1.data xyz2.data
              grad_dist1.data idx1.data grad_dist2.data idx2.data).2⟩)

/-- The flat positions at which the backward pass writes `grad_xyz1`
(also the positions at which the B→A pass reads `xyz1`), in program
order: for each batch the direct writes `(i*n+j)*6+c` and the scattered
writes `(i*n+idx2[i*m+j])*6+c`, whose base is taken from the `int32`
input without any range validation. -/
def g1WritePositions (b n m : ℕ) (x1 x2 gd1 : List ℚ) (id1 : List ℤ) (gd2 : List ℚ)
    (id2 : List ℤ) : List ℤ :=
  (List.range b).flatMap (fun i =>
    (List.range n).flatMap (fun j => (upds_g1_direct n m x1 x2 gd1 id1 i j).map Prod.fst)
    ++ (List.range m).flatMap (fun j => (upds_g1_scatter n m x1 x2 gd2 id2 i j).map Prod.fst))

/-- The flat positions at which the backward pass writes `grad_xyz2`
(also the positions at which the A→B pass reads `xyz2`): the scattered
writes `(i*m+idx1[i*n+j])*6+c` taken from the unvalidated `int32` input,
and the direct writes `(i*m+j)*6+c`. -/
def g2WritePositions (b n m : ℕ) (x1 x2 gd1 : List ℚ) (id1 : List ℤ) (gd2 : List ℚ)
    (id2 : List ℤ) : List ℤ :=
  (List.range b).flatMap (fun i =>
    (List.range n).flatMap (fun j => (upds_g2_scatter n m x1 x2 gd1 id1 i j).map Prod.fst)
    ++ (List.range m).flatMap (fun j => (upds_g2_direct n m x1 x2 gd2 id2 i j).map Prod.fst))

/-- `⌊log₂ q⌋` for positive rationals, by fuelled binary search; fuel 1100
covers every exponent reachable in this development.  Used only to
position the rounding point of `rnd`. -/
def log2p : ℕ → ℚ → ℤ
  | 0, _ => 0
  | fuel+1, q =>
    if q < 1 then log2p fuel (2*q) - 1
    else if q < 2 then 0
    else log2p fuel (q/2) + 1

def ilog2 (q : ℚ) : ℤ := log2p 1100 q

/-- `2^e` over `ℚ` for an integer exponent, written without the `zpow`
instance chain so that it evaluates by kernel reduction. -/
def pow2z : ℤ → ℚ
  | (k : ℕ) => ((2^k : ℕ) : ℚ)
  | .negSucc k => 1 / ((2^(k+1) : ℕ) : ℚ)

/-- `|q|`, written without the lattice instance chain so that it evaluates
by kernel reduction. -/
def qabs (q : ℚ) : ℚ := if q < 0 then -q else q

/-- Round a rational to `prec` significant binary digits, round to nearest
with ties to even: the model of an IEEE-754 binary floating-point result
in the normal range (overflow and subnormals are not modelled; they are
never reached in this development).  `prec = 24` models `float`
(binary32), `prec = 53` models `double` (binary64). -/
def rnd (prec : ℕ) (q : ℚ) : ℚ :=
  if q = 0 then 0
  else
    let e : ℤ := ilog2 (qabs q) - ((prec : ℤ) - 1)
    let s : ℚ := q * pow2z (-e)
    let f : ℤ := ⌊s⌋
    let r : ℤ :=
      if s - (f : ℚ) < 1/2 then f
      else if (1 : ℚ)/2 < s - (f : ℚ) then f + 1
      else if f % 2 = 0 then f else f + 1
    (r : ℚ) * pow2z e

/-- `float` addition: both operands are `float`, so the C++ sum is computed
in binary32 (FLT_EVAL_METHOD = 0, the default on x86-64 with SSE). -/
def fadd (a b : ℚ) : ℚ := rnd 24 (a + b)

/-- `float` subtraction in binary32. -/
def fsub (a b : ℚ) : ℚ := rnd 24 (a - b)

/-- `float` multiplication in binary32. -/
def fmul (a b : ℚ) : ℚ := rnd 24 (a * b)

/-- `double` addition in binary64. -/
def dadd (a b : ℚ) : ℚ := rnd 53 (a + b)

/-- `double` subtraction in binary64. -/
def dsub (a b : ℚ) : ℚ := rnd 53 (a - b)

/-- `double` multiplication in binary64. -/
def dmul (a b : ℚ) : ℚ := rnd 53 (a * b)

/-- The per-pair squared distance of `nnsearch` (lines 26-41) under the
C++ floating-point semantics of
`double d = x2*x2+y2*y2+z2*z2+x2_1*x2_1+y2_1*y2_1+z2_1*z2_1;`:
all operands `x2,...,z2_1` have type `float`, so by the usual arithmetic
conversions every product and every (left-associated) addition is a
binary32 operation; only the finished sum is widened to `double` when
initialising `d` (an exact conversion, modelled as the identity). -/
def sqd6F (xyz1 xyz2 : List ℚ) (n m i j k : ℕ) : ℚ :=
  let x1 := xyz1.getD ((i*n+j)*6+0) 0
  let y1 := xyz1.getD ((i*n+j)*6+1) 0
  let z1 := xyz1.getD ((i*n+j)*6+2) 0
  let x1_1 := xyz1.getD ((i*n+j)*6+3) 0
  let y1_1 := xyz1.getD ((i*n+j)*6+4) 0
  let z1_1 := xyz1.getD ((i*n+j)*6+5) 0
  let x2 := fsub (xyz2.getD ((i*m+k)*6+0) 0) x1
  let y2 := fsub (xyz2.getD ((i*m+k)*6+1) 0) y1
  let z2 := fsub (xyz2.getD ((i*m+k)*6+2) 0) z1
  let x2_1 := fsub (xyz2.getD ((i*m+k)*6+3) 0) x1_1
  let y2_1 := fsub (xyz2.getD ((i*m+k)*6+4) 0) y1_1
  let z2_1 := fsub (xyz2.getD ((i*m+k)*6+5) 0) z1_1
  fadd (fadd (fadd (fadd (fadd (fmul x2 x2) (fmul y2 y2)) (fmul z2 z2))
    (fmul x2_1 x2_1)) (fmul y2_1 y2_1)) (fmul z2_1 z2_1)

/-- Follows the spec's words, for comparison with `sqd6F`: "squaredDist6D
... computed in a precision wide enough to avoid intermediate
overflow/cancellation ... (accumulate in double precision even if storage
is single precision)" — every square and every partial sum rounded to
binary64 instead of binary32. -/
def sqd6D_specModel (xyz1 xyz2 : List ℚ) (n m i j k : ℕ) : ℚ :=
  let x1 := xyz1.getD ((i*n+j)*6+0) 0
  let y1 := xyz1.getD ((i*n+j)*6+1) 0
  let z1 := xyz1.getD ((i*n+j)*6+2) 0
  let x1_1 := xyz1.getD ((i*n+j)*6+3) 0
  let y1_1 := xyz1.getD ((i*n+j)*6+4) 0
  let z1_1 := xyz1.getD ((i*n+j)*6+5) 0
  let x2 := dsub (xyz2.getD ((i*m+k)*6+0) 0) x1
  let y2 := dsub (xyz2.getD ((i*m+k)*6+1) 0) y1
  let z2 := dsub (xyz2.getD ((i*m+k)*6+2) 0) z1
  let x2_1 := dsub (xyz2.getD ((i*m+k)*6+3) 0) x1_1
  let y2_1 := dsub (xyz2.getD ((i*m+k)*6+4) 0) y1_1
  let z2_1 := dsub (xyz2.getD ((i*m+k)*6+5) 0) z1_1
  dadd (dadd (dadd (dadd (dadd (dmul x2 x2) (dmul y2 y2)) (dmul z2 z2))
    (dmul x2_1 x2_1)) (dmul y2_1 y2_1)) (dmul z2_1 z2_1)

/-- The nearest-neighbour contract the spec states for one source point
(`index[i,j] = argmin_k squaredDist6D(A[i,j], B[i,k])`, `distance[i,j]`
the minimum value): `idx` is a valid candidate index attaining `dist`,
and `dist` is minimal over all candidates. -/
def isNearest (xyz1 xyz2 : List ℚ) (n m i j : ℕ) (dist : ℚ) (idx : ℤ) : Prop :=
  ∃ k : ℕ, k < m ∧ idx = (k : ℤ) ∧ dist = sqd6 xyz1 xyz2 n m i j k ∧
    ∀ k', k' < m → dist ≤ sqd6 xyz1 xyz2 n m i j k'

/-- The closed form the spec's gradient contract gives for
`gradXyz1[i,j,c]`: the direct A→B term `g*(A[i,j,c]-B[i,k,c])` plus the
sum of the scattered `-g*(B[i,j2,c]-A[i,j,c])` contributions of every
point `j2` of B whose `idx2` match is `j`. -/
def grad1Formula (n m : ℕ) (x1 x2 gd1 : List ℚ) (id1 : List ℤ) (gd2 : List ℚ)
    (id2 : List ℤ) (i j c : ℕ) : ℚ :=
  pass1Val n m x1 x2 gd1 id1 i j c +
    ((List.range m).map (fun j2 =>
      if id2.getD (i*m+j2) 0 = (j : ℤ) then -pass2Val n m x1 x2 gd2 id2 i j2 c else 0)).sum

/-- The closed form the spec's gradient contract gives for
`gradXyz2[i,j,c]`: the direct B→A term plus the scattered contributions
of every point `j1` of A whose `idx1` match is `j`. -/
def grad2Formula (n m : ℕ) (x1 x2 gd1 : List ℚ) (id1 : List ℤ) (gd2 : List ℚ)
    (id2 : List ℤ) (i j c : ℕ) : ℚ :=
  pass2Val n m x1 x2 gd2 id2 i j c +
    ((List.range n).map (fun j1 =>
      if id1.getD (i*n+j1) 0 = (j : ℤ) then -pass1Val n m x1 x2 gd1 id1 i j1 c else 0)).sum

lemma nnScan_snd_lt (d : ℕ → ℚ) (m : ℕ) (hm : 1 ≤ m) : (nnScan d m).2 < m := by
  induction m with
  | zero => omega
  | succ t ih =>
    by_cases ht : t = 0
    · subst ht; simp [nnScan]
    · simp only [nnScan]
      split
      · simp
      · exact Nat.lt_succ_of_lt (ih (by omega))

lemma nnScan_fst_eq (d : ℕ → ℚ) (m : ℕ) (hm : 1 ≤ m) :
    (nnScan d m).1 = d (nnScan d m).2 := by
  induction m with
  | zero => omega
  | succ t ih =>
    by_cases ht : t = 0
    · subst ht; simp [nnScan]
    · simp only [nnScan]
      split
      · simp
      · exact ih (by omega)

lemma nnScan_fst_le (d : ℕ → ℚ) (m : ℕ) (hm : 1 ≤ m) (k : ℕ) (hk : k < m) :
    (nnScan d m).1 ≤ d k := by
  induction m with
  | zero => omega
  | succ t ih =>
    by_cases ht : t = 0
    · subst ht
      have hk0 : k = 0 := by omega
      subst hk0
      simp [nnScan]
    · by_cases hc : t = 0 ∨ d t < (nnScan d t).1
      · simp only [nnScan, if_pos hc]
        rcases hc with hc | hc
        · omega
        · by_cases hkt : k = t
          · subst hkt; simp
          · exact le_of_lt (lt_of_lt_of_le hc (ih (by omega) (by omega)))
      · simp only [nnScan, if_neg hc]
        by_cases hkt : k = t
        · subst hkt
          push_neg at hc
          exact hc.2
        · exact ih (by omega) (by omega)

lemma nnScan_lt_of_lt_snd (d : ℕ → ℚ) (m : ℕ) (k : ℕ) (hk : k < (nnScan d m).2) :
    (nnScan d m).1 < d k := by
  induction m with
  | zero => simp [nnScan] at hk
  | succ t ih =>
    by_cases hc : t = 0 ∨ d t < (nnScan d t).1
    · simp only [nnScan, if_pos hc] at hk ⊢
      rcases hc with hc | hc
      · omega
      · exact lt_of_lt_of_le hc (nnScan_fst_le d t (by omega) k hk)
    · simp only [nnScan, if_neg hc] at hk ⊢
      exact ih hk

lemma flat2_lt {i b j n : ℕ} (hi : i < b) (hj : j < n) : i * n + j < b * n :=
  calc i * n + j < (i + 1) * n := by rw [Nat.add_mul, Nat.one_mul]; omega
    _ ≤ b * n := Nat.mul_le_mul_right n hi

lemma flat2_div {i j n : ℕ} (hj : j < n) : (i * n + j) / n = i := by
  rw [Nat.add_comm, Nat.add_mul_div_right _ _ (by omega : 0 < n),
    Nat.div_eq_of_lt hj, Nat.zero_add]

lemma flat2_mod {i j n : ℕ} (hj : j < n) : (i * n + j) % n = j := by
  rw [Nat.add_comm, Nat.add_mul_mod_self_right, Nat.mod_eq_of_lt hj]

lemma getD_map_range {β : Type} [Inhabited β] (t p : ℕ) (f : ℕ → β) (hp : p < t) :
    (((List.range t).map f).getD p default) = f p := by
  rw [List.getD_eq_getElem?_getD, List.getElem?_map, List.getElem?_range hp]
  rfl

lemma nnsearch_dist_getD (b n m : ℕ) (xyz1 xyz2 : List ℚ) (i j : ℕ)
    (hi : i < b) (hj : j < n) :
    (nnsearch b n m xyz1 xyz2).1.getD (i * n + j) 0
      = (nnScan (sqd6 xyz1 xyz2 n m i j) m).1 := by
  have hp : i * n + j < b * n := flat2_lt hi hj
  have : ((0 : ℚ)) = default := rfl
  rw [nnsearch, this, getD_map_range _ _ _ hp, flat2_div hj, flat2_mod hj]

lemma nnsearch_idx_getD (b n m : ℕ) (xyz1 xyz2 : List ℚ) (i j : ℕ)
    (hi : i < b) (hj : j < n) :
    (nnsearch b n m xyz1 xyz2).2.getD (i * n + j) 0
      = ((nnScan (sqd6 xyz1 xyz2 n m i j) m).2 : ℤ) := by
  have hp : i * n + j < b * n := flat2_lt hi hj
  have : ((0 : ℤ)) = default := rfl
  rw [nnsearch, this, getD_map_range _ _ _ hp, flat2_div hj, flat2_mod hj]

lemma computeForward_ok (x y : T ℚ) (r : T ℚ × T ℤ × T ℚ × T ℤ)
    (h : computeForward x y = .ok r) :
    x.shape.length = 3 ∧ x.shape.getD 2 0 = 6 ∧ y.shape.length = 3 ∧
    y.shape.getD 2 0 = 6 ∧ y.shape.getD 0 0 = x.shape.getD 0 0 ∧
    r = (⟨[dim x 0, dim x 1], (nnsearch (dim x 0) (dim x 1) (dim y 1) x.data y.data).1⟩,
         ⟨[dim x 0, dim x 1], (nnsearch (dim x 0) (dim x 1) (dim y 1) x.data y.data).2⟩,
         ⟨[dim x 0, dim y 1], (nnsearch (dim x 0) (dim y 1) (dim x 1) y.data x.data).1⟩,
         ⟨[dim x 0, dim y 1], (nnsearch (dim x 0) (dim y 1) (dim x 1) y.data x.data).2⟩) := by
  unfold computeForward at h
  split_ifs at h with h1 h2 h3 h4 h5
  simp_all

lemma applyUpds_cons (l : List ℚ) (u : ℤ × ℚ) (us : List (ℤ × ℚ)) :
    applyUpds l (u :: us) = applyUpds (updZ l u.1 u.2) us := rfl

lemma applyUpds_append (l : List ℚ) (us vs : List (ℤ × ℚ)) :
    applyUpds l (us ++ vs) = applyUpds (applyUpds l us) vs := by
  simp [applyUpds, List.foldl_append]

lemma length_updZ (l : List ℚ) (p : ℤ) (v : ℚ) : (updZ l p v).length = l.length := by
  unfold updZ
  split <;> simp

lemma length_applyUpds : ∀ (us : List (ℤ × ℚ)) (l : List ℚ),
    (applyUpds l us).length = l.length
  | [], _ => rfl
  | u :: us, l => by rw [applyUpds_cons, length_applyUpds us, length_updZ]

lemma getD_updZ (l : List ℚ) (p : ℤ) (v : ℚ) (q : ℕ) (hq : q < l.length) :
    (updZ l p v).getD q 0 = l.getD q 0 + (if p = (q : ℤ) then v else 0) := by
  unfold updZ
  by_cases hp : p = (q : ℤ)
  · have h0 : (0 : ℤ) ≤ p := by rw [hp]; exact Int.ofNat_nonneg q
    rw [if_pos h0, if_pos hp, hp]
    simp [List.getD_eq_getElem?_getD, List.getElem?_set_self hq]
  · rw [if_neg hp]
    by_cases h0 : (0 : ℤ) ≤ p
    · rw [if_pos h0]
      have hne : p.toNat ≠ q := by
        intro hEq
        exact hp (by rw [← hEq, Int.toNat_of_nonneg h0])
      simp [List.getD_eq_getElem?_getD, List.getElem?_set_ne hne]
    · rw [if_neg h0]
      simp

lemma getD_applyUpds : ∀ (us : List (ℤ × ℚ)) (l : List ℚ) (q : ℕ), q < l.length →
    (applyUpds l us).getD q 0
      = l.getD q 0 + ((us.filter (fun u => u.1 = (q : ℤ))).map Prod.snd).sum
  | [], l, q, _ => by simp [applyUpds]
  | u :: us, l, q, hq => by
    rw [applyUpds_cons, getD_applyUpds us _ q (by rw [length_updZ]; exact hq),
      getD_updZ l u.1 u.2 q hq, List.filter_cons]
    by_cases hu : u.1 = (q : ℤ)
    · simp [hu]
      ring
    · simp [hu]

lemma foldl_pair_applyUpds {α : Type} (l : List α) (f g : α → List (ℤ × ℚ))
    (s : List ℚ × List ℚ) :
    l.foldl (fun t a => (applyUpds t.1 (f a), applyUpds t.2 (g a))) s
      = (applyUpds s.1 (l.flatMap f), applyUpds s.2 (l.flatMap g)) := by
  induction l generalizing s with
  | nil => simp [applyUpds]
  | cons a l ih =>
    rw [List.foldl_cons, ih, List.flatMap_cons, List.flatMap_cons,
      applyUpds_append, applyUpds_append]

lemma gradCore_eq (b n m : ℕ) (x1 x2 gd1 : List ℚ) (id1 : List ℤ) (gd2 : List ℚ)
    (id2 : List ℤ) :
    gradCore b n m x1 x2 gd1 id1 gd2 id2
      = (applyUpds (List.replicate (b*n*6) 0)
           ((List.range b).flatMap (fun i =>
             (List.range n).flatMap (upds_g1_direct n m x1 x2 gd1 id1 i)
             ++ (List.range m).flatMap (upds_g1_scatter n m x1 x2 gd2 id2 i))),
         applyUpds (List.replicate (b*m*6) 0)
           ((List.range b).flatMap (fun i =>
             (List.range n).flatMap (upds_g2_scatter n m x1 x2 gd1 id1 i)
             ++ (List.range m).flatMap (upds_g2_direct n m x1 x2 gd2 id2 i)))) := by
  unfold gradCore
  have hstep : (fun (g : List ℚ × List ℚ) (i : ℕ) =>
      (List.range m).foldl
        (fun g j => (applyUpds g.1 (upds_g1_scatter n m x1 x2 gd2 id2 i j),
                     applyUpds g.2 (upds_g2_direct n m x1 x2 gd2 id2 i j)))
        ((List.range n).foldl
          (fun g j => (applyUpds g.1 (upds_g1_direct n m x1 x2 gd1 id1 i j),
                       applyUpds g.2 (upds_g2_scatter n m x1 x2 gd1 id1 i j))) g))
      = fun g i =>
        (applyUpds g.1 ((List.range n).flatMap (upds_g1_direct n m x1 x2 gd1 id1 i)
            ++ (List.range m).flatMap (upds_g1_scatter n m x1 x2 gd2 id2 i)),
         applyUpds g.2 ((List.range n).flatMap (upds_g2_scatter n m x1 x2 gd1 id1 i)
            ++ (List.range m).flatMap (upds_g2_direct n m x1 x2 gd2 id2 i))) := by
    funext g i
    rw [foldl_pair_applyUpds, foldl_pair_applyUpds]
    simp [applyUpds_append]
  rw [hstep, foldl_pair_applyUpds]

lemma flat2_inj {i i' j j' n : ℕ} (hj : j < n) (hj' : j' < n)
    (h : i*n+j = i'*n+j') : i = i' ∧ j = j' := by
  have hjj : j = j' := by
    have h1 := flat2_mod (i := i) hj
    have h2 := flat2_mod (i := i') hj'
    rw [h] at h1
    rw [h1] at h2
    exact h2
  subst hjj
  have hii : i * n = i' * n := by omega
  exact ⟨Nat.eq_of_mul_eq_mul_right (by omega) hii, rfl⟩

lemma flat3_lt {i b j n c : ℕ} (hi : i < b) (hj : j < n) (hc : c < 6) :
    (i*n+j)*6+c < b*n*6 := by
  have h1 : i*n+j < b*n := flat2_lt hi hj
  calc (i*n+j)*6+c < ((i*n+j)+1)*6 := by omega
    _ ≤ (b*n)*6 := Nat.mul_le_mul_right 6 (by omega)

lemma flat3_inj {i i' j j' c c' n : ℕ} (hj : j < n) (hj' : j' < n) (hc : c < 6)
    (hc' : c' < 6) (h : (i*n+j)*6+c = (i'*n+j')*6+c') : i = i' ∧ j = j' ∧ c = c' := by
  have hX : i*n+j = i'*n+j' ∧ c = c' := by omega
  obtain ⟨h1, h2⟩ := flat2_inj hj hj' hX.1
  exact ⟨h1, h2, hX.2⟩

lemma sum_filter_flatMap {α : Type} (l : List α) (f : α → List (ℤ × ℚ))
    (P : ℤ × ℚ → Bool) :
    (((l.flatMap f).filter P).map Prod.snd).sum
      = (l.map (fun a => (((f a).filter P).map Prod.snd).sum)).sum := by
  induction l with
  | nil => rfl
  | cons a l ih =>
    rw [List.flatMap_cons, List.filter_append, List.map_append, List.sum_append, ih,
      List.map_cons, List.sum_cons]

lemma sum_map_range_zero (t : ℕ) (f : ℕ → ℚ) :
    (∀ y, y < t → f y = 0) → ((List.range t).map f).sum = 0 := by
  induction t with
  | zero => intro _; rfl
  | succ t ih =>
    intro h
    rw [List.range_succ, List.map_append, List.sum_append,
      ih (fun y hy => h y (by omega))]
    simp [h t (by omega)]

lemma sum_map_range_single (t : ℕ) (f : ℕ → ℚ) (x : ℕ) :
    x < t → (∀ y, y < t → y ≠ x → f y = 0) → ((List.range t).map f).sum = f x := by
  induction t with
  | zero => intro hx _; omega
  | succ t ih =>
    intro hx h
    rw [List.range_succ, List.map_append, List.sum_append]
    by_cases hxt : x = t
    · rw [sum_map_range_zero t f (fun y hy => h y (by omega) (by omega))]
      simp [hxt]
    · rw [ih (by omega) (fun y hy hne => h y (by omega) hne)]
      simp [h t (by omega) (Ne.symm hxt)]

lemma filter_upds_g1_direct (n m : ℕ) (x1 x2 gd1 : List ℚ) (id1 : List ℤ)
    (i' j' tgt c : ℕ) (hc : c < 6) :
    (upds_g1_direct n m x1 x2 gd1 id1 i' j').filter
        (fun u => u.1 = ((tgt*6+c : ℕ) : ℤ))
      = if i'*n+j' = tgt
        then [(((tgt*6+c : ℕ) : ℤ), pass1Val n m x1 x2 gd1 id1 i' j' c)]
        else [] := by
  have hiff : ∀ c0 : ℕ, c0 < 6 →
      ((((i'*n+j')*6+c0 : ℕ) : ℤ) = ((tgt*6+c : ℕ) : ℤ) ↔ (i'*n+j' = tgt ∧ c0 = c)) := by
    intro c0 hc0
    omega
  simp only [upds_g1_direct, List.filter_cons, List.filter_nil, decide_eq_true_eq,
    hiff 0 (by omega), hiff 1 (by omega), hiff 2 (by omega), hiff 3 (by omega),
    hiff 4 (by omega), hiff 5 (by omega)]
  by_cases hbt : i'*n+j' = tgt
  · subst hbt
    rw [if_pos rfl]
    interval_cases c <;> simp
  · rw [if_neg hbt]
    simp [hbt]

lemma filter_upds_g2_direct (n m : ℕ) (x1 x2 gd2 : List ℚ) (id2 : List ℤ)
    (i' j' tgt c : ℕ) (hc : c < 6) :
    (upds_g2_direct n m x1 x2 gd2 id2 i' j').filter
        (fun u => u.1 = ((tgt*6+c : ℕ) : ℤ))
      = if i'*m+j' = tgt
        then [(((tgt*6+c : ℕ) : ℤ), pass2Val n m x1 x2 gd2 id2 i' j' c)]
        else [] := by
  have hiff : ∀ c0 : ℕ, c0 < 6 →
      ((((i'*m+j')*6+c0 : ℕ) : ℤ) = ((tgt*6+c : ℕ) : ℤ) ↔ (i'*m+j' = tgt ∧ c0 = c)) := by
    intro c0 hc0
    omega
  simp only [upds_g2_direct, List.filter_cons, List.filter_nil, decide_eq_true_eq,
    hiff 0 (by omega), hiff 1 (by omega), hiff 2 (by omega), hiff 3 (by omega),
    hiff 4 (by omega), hiff 5 (by omega)]
  by_cases hbt : i'*m+j' = tgt
  · subst hbt
    rw [if_pos rfl]
    interval_cases c <;> simp
  · rw [if_neg hbt]
    simp [hbt]

lemma filter_upds_g2_scatter (n m : ℕ) (x1 x2 gd1 : List ℚ) (id1 : List ℤ)
    (i' j' tgt c : ℕ) (hc : c < 6) (hw : 0 ≤ id1.getD (i'*n+j') 0) :
    (upds_g2_scatter n m x1 x2 gd1 id1 i' j').filter
        (fun u => u.1 = ((tgt*6+c : ℕ) : ℤ))
      = if i'*m + (id1.getD (i'*n+j') 0).toNat = tgt
        then [(((tgt*6+c : ℕ) : ℤ), -pass1Val n m x1 x2 gd1 id1 i' j' c)]
        else [] := by
  have hiff : ∀ l : ℤ, 0 ≤ l → l < 6 →
      (((((i'*m : ℕ) : ℤ) + id1.getD (i'*n+j') 0) * 6 + l = ((tgt*6+c : ℕ) : ℤ))
        ↔ (i'*m + (id1.getD (i'*n+j') 0).toNat = tgt ∧ l = (c : ℤ))) := by
    intro l hl0 hl6
    omega
  simp only [upds_g2_scatter, List.filter_cons, List.filter_nil, decide_eq_true_eq,
    hiff 0 (by omega) (by omega), hiff 1 (by omega) (by omega), hiff 2 (by omega) (by omega),
    hiff 3 (by omega) (by omega), hiff 4 (by omega) (by omega), hiff 5 (by omega) (by omega)]
  by_cases hbt : i'*m + (id1.getD (i'*n+j') 0).toNat = tgt
  · subst hbt
    rw [if_pos rfl]
    interval_cases c <;> simp [-List.getD_eq_getElem?_getD] <;> omega
  · rw [if_neg hbt]
    simp [-List.getD_eq_getElem?_getD, hbt]

lemma filter_upds_g1_scatter (n m : ℕ) (x1 x2 gd2 : List ℚ) (id2 : List ℤ)
    (i' j' tgt c : ℕ) (hc : c < 6) (hw : 0 ≤ id2.getD (i'*m+j') 0) :
    (upds_g1_scatter n m x1 x2 gd2 id2 i' j').filter
        (fun u => u.1 = ((tgt*6+c : ℕ) : ℤ))
      = if i'*n + (id2.getD (i'*m+j') 0).toNat = tgt
        then [(((tgt*6+c : ℕ) : ℤ), -pass2Val n m x1 x2 gd2 id2 i' j' c)]
        else [] := by
  have hiff : ∀ l : ℤ, 0 ≤ l → l < 6 →
      (((((i'*n : ℕ) : ℤ) + id2.getD (i'*m+j') 0) * 6 + l = ((tgt*6+c : ℕ) : ℤ))
        ↔ (i'*n + (id2.getD (i'*m+j') 0).toNat = tgt ∧ l = (c : ℤ))) := by
    intro l hl0 hl6
    omega
  simp only [upds_g1_scatter, List.filter_cons, List.filter_nil, decide_eq_true_eq,
    hiff 0 (by omega) (by omega), hiff 1 (by omega) (by omega), hiff 2 (by omega) (by omega),
    hiff 3 (by omega) (by omega), hiff 4 (by omega) (by omega), hiff 5 (by omega) (by omega)]
  by_cases hbt : i'*n + (id2.getD (i'*m+j') 0).toNat = tgt
  · subst hbt
    rw [if_pos rfl]
    interval_cases c <;> simp [-List.getD_eq_getElem?_getD] <;> omega
  · rw [if_neg hbt]
    simp [-List.getD_eq_getElem?_getD, hbt]

lemma grad1_getD (b n m : ℕ) (x1 x2 gd1 : List ℚ) (id1 : List ℤ) (gd2 : List ℚ)
    (id2 : List ℤ)
    (hid2 : ∀ p, p < b*m → 0 ≤ id2.getD p 0 ∧ id2.getD p 0 < (n : ℤ))
    (i j c : ℕ) (hi : i < b) (hj : j < n) (hc : c < 6) :
    (gradCore b n m x1 x2 gd1 id1 gd2 id2).1.getD ((i*n+j)*6+c) 0
      = grad1Formula n m x1 x2 gd1 id1 gd2 id2 i j c := by
  have hq : (i*n+j)*6+c < (List.replicate (b*n*6) (0:ℚ)).length := by
    simpa using flat3_lt hi hj hc
  rw [gradCore_eq]
  dsimp only
  rw [getD_applyUpds _ _ _ hq, sum_filter_flatMap]
  have hFy : ∀ y, y < b →
      ((((List.range n).flatMap (upds_g1_direct n m x1 x2 gd1 id1 y)
          ++ (List.range m).flatMap (upds_g1_scatter n m x1 x2 gd2 id2 y)).filter
            (fun u => u.1 = (((i*n+j)*6+c : ℕ) : ℤ))).map Prod.snd).sum
        = ((List.range n).map (fun j' =>
            if y*n+j' = i*n+j then pass1Val n m x1 x2 gd1 id1 y j' c else 0)).sum
          + ((List.range m).map (fun j' =>
            if y*n + (id2.getD (y*m+j') 0).toNat = i*n+j
            then -pass2Val n m x1 x2 gd2 id2 y j' c else 0)).sum := by
    intro y hy
    rw [List.filter_append, List.map_append, List.sum_append, sum_filter_flatMap,
      sum_filter_flatMap]
    congr 1
    · refine congrArg List.sum (List.map_congr_left ?_)
      intro j' hj'
      rw [List.mem_range] at hj'
      rw [filter_upds_g1_direct n m x1 x2 gd1 id1 y j' (i*n+j) c hc]
      by_cases hcond : y*n+j' = i*n+j
      · simp [hcond]
      · simp [hcond]
    · refine congrArg List.sum (List.map_congr_left ?_)
      intro j' hj'
      rw [List.mem_range] at hj'
      rw [filter_upds_g1_scatter n m x1 x2 gd2 id2 y j' (i*n+j) c hc
        (hid2 (y*m+j') (flat2_lt hy hj')).1]
      by_cases hcond : y*n + (id2.getD (y*m+j') 0).toNat = i*n+j
      · simp [-List.getD_eq_getElem?_getD, hcond]
      · simp [-List.getD_eq_getElem?_getD, hcond]
  rw [sum_map_range_single b _ i hi ?hzeroA]
  case hzeroA =>
    intro y hy hyi
    rw [hFy y hy]
    have hz1 : ((List.range n).map (fun j' =>
        if y*n+j' = i*n+j then pass1Val n m x1 x2 gd1 id1 y j' c else 0)).sum = 0 :=
      sum_map_range_zero _ _
        (fun j' hj' => if_neg (fun hcond => hyi (flat2_inj hj' hj hcond).1))
    have hz2 : ((List.range m).map (fun j' =>
        if y*n + (id2.getD (y*m+j') 0).toNat = i*n+j
        then -pass2Val n m x1 x2 gd2 id2 y j' c else 0)).sum = 0 := by
      refine sum_map_range_zero _ _ ?_
      intro j' hj'
      have hv := hid2 (y*m+j') (flat2_lt hy hj')
      have hvn : (id2.getD (y*m+j') 0).toNat < n := by omega
      exact if_neg (fun hcond => hyi (flat2_inj hvn hj hcond).1)
    rw [hz1, hz2]
    ring
  rw [hFy i hi]
  have hS1 : ((List.range n).map (fun j' =>
      if i*n+j' = i*n+j then pass1Val n m x1 x2 gd1 id1 i j' c else 0)).sum
      = pass1Val n m x1 x2 gd1 id1 i j c := by
    rw [sum_map_range_single n _ j hj ?_]
    · simp
    · intro y hy hyj
      rw [if_neg (by omega)]
  have hS2 : ((List.range m).map (fun j' =>
      if i*n + (id2.getD (i*m+j') 0).toNat = i*n+j
      then -pass2Val n m x1 x2 gd2 id2 i j' c else 0)).sum
      = ((List.range m).map (fun j' =>
        if id2.getD (i*m+j') 0 = (j : ℤ)
        then -pass2Val n m x1 x2 gd2 id2 i j' c else 0)).sum := by
    refine congrArg List.sum (List.map_congr_left ?_)
    intro j' hj'
    rw [List.mem_range] at hj'
    have hv := hid2 (i*m+j') (flat2_lt hi hj')
    have hcond : (i*n + (id2.getD (i*m+j') 0).toNat = i*n+j)
        ↔ (id2.getD (i*m+j') 0 = (j : ℤ)) := by omega
    by_cases hx : id2.getD (i*m+j') 0 = (j : ℤ)
    · rw [if_pos (hcond.mpr hx), if_pos hx]
    · rw [if_neg (fun hcc => hx (hcond.mp hcc)), if_neg hx]
  rw [hS1, hS2, grad1Formula]
  have h0 : (List.replicate (b*n*6) (0:ℚ)).getD ((i*n+j)*6+c) 0 = 0 := by
    simp [List.getD_eq_getElem?_getD, List.getElem?_replicate_of_lt (by simpa using hq)]
  rw [h0]
  ring

lemma grad2_getD (b n m : ℕ) (x1 x2 gd1 : List ℚ) (id1 : List ℤ) (gd2 : List ℚ)
    (id2 : List ℤ)
    (hid1 : ∀ p, p < b*n → 0 ≤ id1.getD p 0 ∧ id1.getD p 0 < (m : ℤ))
    (i j c : ℕ) (hi : i < b) (hj : j < m) (hc : c < 6) :
    (gradCore b n m x1 x2 gd1 id1 gd2 id2).2.getD ((i*m+j)*6+c) 0
      = grad2Formula n m x1 x2 gd1 id1 gd2 id2 i j c := by
  have hq : (i*m+j)*6+c < (List.replicate (b*m*6) (0:ℚ)).length := by
    simpa using flat3_lt hi hj hc
  rw [gradCore_eq]
  dsimp only
  rw [getD_applyUpds _ _ _ hq, sum_filter_flatMap]
  have hFy : ∀ y, y < b →
      ((((List.range n).flatMap (upds_g2_scatter n m x1 x2 gd1 id1 y)
          ++ (List.range m).flatMap (upds_g2_direct n m x1 x2 gd2 id2 y)).filter
            (fun u => u.1 = (((i*m+j)*6+c : ℕ) : ℤ))).map Prod.snd).sum
        = ((List.range n).map (fun j' =>
            if y*m + (id1.getD (y*n+j') 0).toNat = i*m+j
            then -pass1Val n m x1 x2 gd1 id1 y j' c else 0)).sum
          + ((List.range m).map (fun j' =>
            if y*m+j' = i*m+j then pass2Val n m x1 x2 gd2 id2 y j' c else 0)).sum := by
    intro y hy
    rw [List.filter_append, List.map_append, List.sum_append, sum_filter_flatMap,
      sum_filter_flatMap]
    congr 1
    · refine congrArg List.sum (List.map_congr_left ?_)
      intro j' hj'
      rw [List.mem_range] at hj'
      rw [filter_upds_g2_scatter n m x1 x2 gd1 id1 y j' (i*m+j) c hc
        (hid1 (y*n+j') (flat2_lt hy hj')).1]
      by_cases hcond : y*m + (id1.getD (y*n+j') 0).toNat = i*m+j
      · simp [-List.getD_eq_getElem?_getD, hcond]
      · simp [-List.getD_eq_getElem?_getD, hcond]
    · refine congrArg List.sum (List.map_congr_left ?_)
      intro j' hj'
      rw [List.mem_range] at hj'
      rw [filter_upds_g2_direct n m x1 x2 gd2 id2 y j' (i*m+j) c hc]
      by_cases hcond : y*m+j' = i*m+j
      · simp [hcond]
      · simp [hcond]
  rw [sum_map_range_single b _ i hi ?hzeroB]
  case hzeroB =>
    intro y hy hyi
    rw [hFy y hy]
    have hz1 : ((List.range n).map (fun j' =>
        if y*m + (id1.getD (y*n+j') 0).toNat = i*m+j
        then -pass1Val n m x1 x2 gd1 id1 y j' c else 0)).sum = 0 := by
      refine sum_map_range_zero _ _ ?_
      intro j' hj'
      have hv := hid1 (y*n+j') (flat2_lt hy hj')
      have hvn : (id1.getD (y*n+j') 0).toNat < m := by omega
      exact if_neg (fun hcond => hyi (flat2_inj hvn hj hcond).1)
    have hz2 : ((List.range m).map (fun j' =>
        if y*m+j' = i*m+j then pass2Val n m x1 x2 gd2 id2 y j' c else 0)).sum = 0 :=
      sum_map_range_zero _ _
        (fun j' hj' => if_neg (fun hcond => hyi (flat2_inj hj' hj hcond).1))
    rw [hz1, hz2]
    ring
  rw [hFy i hi]
  have hS2 : ((List.range m).map (fun j' =>
      if i*m+j' = i*m+j then pass2Val n m x1 x2 gd2 id2 i j' c else 0)).sum
      = pass2Val n m x1 x2 gd2 id2 i j c := by
    rw [sum_map_range_single m _ j hj ?_]
    · simp
    · intro y hy hyj
      rw [if_neg (by omega)]
  have hS1 : ((List.range n).map (fun j' =>
      if i*m + (id1.getD (i*n+j') 0).toNat = i*m+j
      then -pass1Val n m x1 x2 gd1 id1 i j' c else 0)).sum
      = ((List.range n).map (fun j' =>
        if id1.getD (i*n+j') 0 = (j : ℤ)
        then -pass1Val n m x1 x2 gd1 id1 i j' c else 0)).sum := by
    refine congrArg List.sum (List.map_congr_left ?_)
    intro j' hj'
    rw [List.mem_range] at hj'
    have hv := hid1 (i*n+j') (flat2_lt hi hj')
    have hcond : (i*m + (id1.getD (i*n+j') 0).toNat = i*m+j)
        ↔ (id1.getD (i*n+j') 0 = (j : ℤ)) := by omega
    by_cases hx : id1.getD (i*n+j') 0 = (j : ℤ)
    · rw [if_pos (hcond.mpr hx), if_pos hx]
    · rw [if_neg (fun hcc => hx (hcond.mp hcc)), if_neg hx]
  rw [hS1, hS2, grad2Formula]
  have h0 : (List.replicate (b*m*6) (0:ℚ)).getD ((i*m+j)*6+c) 0 = 0 := by
    simp [List.getD_eq_getElem?_getD, List.getElem?_replicate_of_lt (by simpa using hq)]
  rw [h0]
  ring

/-- Claim C3: in the forward nearest-neighbour scan, candidates `k` are
visited from `0` upward and the incumbent `(best, besti)` is replaced only
on strict improvement `d k < best`, with the very first candidate `k = 0`
always initialising the incumbent; consequently the returned value is the
minimum, the returned index attains it, every index below the returned one
has strictly larger distance, and among exact ties the lowest index is
returned. -/
theorem scan_strict_improvement_lowest_tie (d : ℕ → ℚ) (m : ℕ) (hm : 1 ≤ m) :
    nnScan d 1 = (d 0, 0) ∧
    (nnScan d m).2 < m ∧
    (nnScan d m).1 = d (nnScan d m).2 ∧
    (∀ k, k < m → (nnScan d m).1 ≤ d k) ∧
    (∀ k, k < (nnScan d m).2 → (nnScan d m).1 < d k) ∧
    (∀ k, k < m → d k = (nnScan d m).1 → (nnScan d m).2 ≤ k) := by
  refine ⟨by simp [nnScan], nnScan_snd_lt d m hm, nnScan_fst_eq d m hm,
    fun k hk => nnScan_fst_le d m hm k hk,
    fun k hk => nnScan_lt_of_lt_snd d m k hk, fun k hk hdk => ?_⟩
  by_contra hlt
  push_neg at hlt
  exact ne_of_lt (nnScan_lt_of_lt_snd d m k hlt) hdk.symm

theorem scan_strict_improvement_lowest_tie_witness :
    (1 : ℕ) ≤ 4 ∧ 3 < 4 ∧
    (fun k => if k = 2 ∨ k = 3 then (1 : ℚ) else 5) 3
      = (nnScan (fun k => if k = 2 ∨ k = 3 then (1 : ℚ) else 5) 4).1 ∧
    (nnScan (fun k => if k = 2 ∨ k = 3 then (1 : ℚ) else 5) 4).2 ≤ 3 :=
  ⟨by decide, by decide, by with_unfolding_all decide,
    (scan_strict_improvement_lowest_tie
      (fun k => if k = 2 ∨ k = 3 then (1 : ℚ) else 5) 4 (by decide)).2.2.2.2.2 3
      (by decide) (by with_unfolding_all decide)⟩

/-- Claim C1: for every accepted forward call, for each batch `i` and point
`j` of `xyz1` (direction needing `M ≥ 1`), the returned `idx1[i,j]` is a
candidate index in `[0,M)` attaining `dist1[i,j]`, and `dist1[i,j]` is the
minimum 6-D squared distance over all `M` candidates; symmetrically for
`idx2`/`dist2` with the two sets swapped (needing `N ≥ 1`). -/
theorem forward_returns_argmin (x y : T ℚ) (d1 : T ℚ) (i1 : T ℤ) (d2 : T ℚ) (i2 : T ℤ)
    (h : computeForward x y = .ok (d1, i1, d2, i2)) (i j : ℕ) (hi : i < dim x 0) :
    (1 ≤ dim y 1 → j < dim x 1 →
      isNearest x.data y.data (dim x 1) (dim y 1) i j
        (d1.data.getD (i * dim x 1 + j) 0) (i1.data.getD (i * dim x 1 + j) 0)) ∧
    (1 ≤ dim x 1 → j < dim y 1 →
      isNearest y.data x.data (dim y 1) (dim x 1) i j
        (d2.data.getD (i * dim y 1 + j) 0) (i2.data.getD (i * dim y 1 + j) 0)) := by
  obtain ⟨-, -, -, -, -, hr⟩ := computeForward_ok x y _ h
  simp only [Prod.mk.injEq] at hr
  obtain ⟨rfl, rfl, rfl, rfl⟩ := hr
  constructor
  · intro hm hj
    refine ⟨(nnScan (sqd6 x.data y.data (dim x 1) (dim y 1) i j) (dim y 1)).2,
      nnScan_snd_lt _ _ hm, ?_, ?_, ?_⟩
    · exact nnsearch_idx_getD _ _ _ _ _ i j hi hj
    · rw [nnsearch_dist_getD _ _ _ _ _ i j hi hj]
      exact nnScan_fst_eq _ _ hm
    · intro k' hk'
      rw [nnsearch_dist_getD _ _ _ _ _ i j hi hj]
      exact nnScan_fst_le _ _ hm k' hk'
  · intro hn hj
    refine ⟨(nnScan (sqd6 y.data x.data (dim y 1) (dim x 1) i j) (dim x 1)).2,
      nnScan_snd_lt _ _ hn, ?_, ?_, ?_⟩
    · exact nnsearch_idx_getD _ _ _ _ _ i j hi hj
    · rw [nnsearch_dist_getD _ _ _ _ _ i j hi hj]
      exact nnScan_fst_eq _ _ hn
    · intro k' hk'
      rw [nnsearch_dist_getD _ _ _ _ _ i j hi hj]
      exact nnScan_fst_le _ _ hn k' hk'

theorem forward_returns_argmin_witness :
    isNearest [0,0,0,0,0,0] [1,0,0,0,0,0] 1 1 0 0 1 0 :=
  (forward_returns_argmin ⟨[1,1,6],[0,0,0,0,0,0]⟩ ⟨[1,1,6],[1,0,0,0,0,0]⟩
      ⟨[1,1],[1]⟩ ⟨[1,1],[0]⟩ ⟨[1,1],[1]⟩ ⟨[1,1],[0]⟩
      (by with_unfolding_all decide) 0 0 (by decide)).1 (by decide) (by decide)

/-- Claim C5: swapping the two input point sets of an accepted forward call
exactly swaps the two output pairs. -/
theorem forward_swap_symmetry (x y : T ℚ) (d1 : T ℚ) (i1 : T ℤ) (d2 : T ℚ) (i2 : T ℤ)
    (h : computeForward x y = .ok (d1, i1, d2, i2)) :
    computeForward y x = .ok (d2, i2, d1, i1) := by
  obtain ⟨h1, h2, h3, h4, h5, hr⟩ := computeForward_ok x y _ h
  simp only [Prod.mk.injEq] at hr
  obtain ⟨rfl, rfl, rfl, rfl⟩ := hr
  unfold computeForward
  rw [if_neg (by simpa using h3), if_neg (by simpa using h4), if_neg (by simpa using h1),
    if_neg (by simpa using h2), if_neg (by simpa using h5.symm)]
  simp only [dim, h5]

theorem forward_swap_symmetry_witness :
    computeForward ⟨[1,2,6],[1,0,0,0,0,0, 4,0,0,0,0,0]⟩ ⟨[1,1,6],[0,0,0,0,0,0]⟩
      = .ok (⟨[1,2],[1,16]⟩, ⟨[1,2],[0,0]⟩, ⟨[1,1],[1]⟩, ⟨[1,1],[0]⟩) :=
  forward_swap_symmetry ⟨[1,1,6],[0,0,0,0,0,0]⟩ ⟨[1,2,6],[1,0,0,0,0,0, 4,0,0,0,0,0]⟩
    ⟨[1,1],[1]⟩ ⟨[1,1],[0]⟩ ⟨[1,2],[1,16]⟩ ⟨[1,2],[0,0]⟩ (by with_unfolding_all decide)

/-- Claim C7 counterexample: the input pair with `M = 0` passes every shape
check (shape `[1,0,6]` is rank 3 with trailing dimension 6 and matching
batch size), yet the returned `idx1` entry is `0`, which is not a valid
reference into the empty opposite set: `0 < M` fails. -/
theorem forward_idx_counterexample :
    computeForward ⟨[1,1,6],[0,0,0,0,0,0]⟩ ⟨[1,0,6],[]⟩
      = .ok (⟨[1,1],[0]⟩, ⟨[1,1],[0]⟩, ⟨[1,0],[]⟩, ⟨[1,0],[]⟩) ∧
    ¬ ((0 : ℤ) < (dim (⟨[1,0,6],([] : List ℚ)⟩ : T ℚ) 1 : ℤ)) :=
  ⟨by with_unfolding_all decide, by decide⟩

/-- Claim C7 amended: for every accepted forward call, whenever the
opposite set is non-empty every returned index is in range (`idx1[i,j] ∈
[0,M)` when `M ≥ 1`, `idx2[i,j] ∈ [0,N)` when `N ≥ 1`); when the opposite
set is empty the fabricated index `0` is returned, which references
nothing. -/
theorem forward_idx_in_range (x y : T ℚ) (d1 : T ℚ) (i1 : T ℤ) (d2 : T ℚ) (i2 : T ℤ)
    (h : computeForward x y = .ok (d1, i1, d2, i2)) (i j : ℕ) (hi : i < dim x 0) :
    (1 ≤ dim y 1 → j < dim x 1 →
      0 ≤ i1.data.getD (i * dim x 1 + j) 0 ∧
      i1.data.getD (i * dim x 1 + j) 0 < (dim y 1 : ℤ)) ∧
    (1 ≤ dim x 1 → j < dim y 1 →
      0 ≤ i2.data.getD (i * dim y 1 + j) 0 ∧
      i2.data.getD (i * dim y 1 + j) 0 < (dim x 1 : ℤ)) ∧
    (dim y 1 = 0 → j < dim x 1 → i1.data.getD (i * dim x 1 + j) 0 = 0) := by
  obtain ⟨-, -, -, -, -, hr⟩ := computeForward_ok x y _ h
  simp only [Prod.mk.injEq] at hr
  obtain ⟨rfl, rfl, rfl, rfl⟩ := hr
  refine ⟨fun hm hj => ?_, fun hn hj => ?_, fun hm0 hj => ?_⟩
  · rw [nnsearch_idx_getD _ _ _ _ _ i j hi hj]
    exact ⟨Int.ofNat_nonneg _, Int.ofNat_lt.mpr (nnScan_snd_lt _ _ hm)⟩
  · rw [nnsearch_idx_getD _ _ _ _ _ i j hi hj]
    exact ⟨Int.ofNat_nonneg _, Int.ofNat_lt.mpr (nnScan_snd_lt _ _ hn)⟩
  · rw [nnsearch_idx_getD _ _ _ _ _ i j hi hj, hm0]
    rfl

theorem forward_idx_in_range_witness :
    0 ≤ (0 : ℤ) ∧ (0 : ℤ) < ((1 : ℕ) : ℤ) :=
  (forward_idx_in_range ⟨[1,1,6],[0,0,0,0,0,0]⟩ ⟨[1,1,6],[1,0,0,0,0,0]⟩
      ⟨[1,1],[1]⟩ ⟨[1,1],[0]⟩ ⟨[1,1],[1]⟩ ⟨[1,1],[0]⟩
      (by with_unfolding_all decide) 0 0 (by decide)).1 (by decide) (by decide)

/-- Claim C8 counterexample: with `N = 0` but `M = 1` the forward call does
not return empty outputs: the second direction still fabricates one
`dist2 = 0`, `idx2 = 0` entry for the point of `xyz2`, whose opposite set
is empty. -/
theorem forward_empty_counterexample :
    computeForward ⟨[1,0,6],[]⟩ ⟨[1,1,6],[0,0,0,0,0,0]⟩
      = .ok (⟨[1,0],[]⟩, ⟨[1,0],[]⟩, ⟨[1,1],[0]⟩, ⟨[1,1],[0]⟩) ∧
    (⟨[1,1],[(0:ℚ)]⟩ : T ℚ).data ≠ [] :=
  ⟨by with_unfolding_all decide, by decide⟩

/-- Claim C8 amended: for an accepted forward call, all four outputs are
empty when `B = 0` or when both `N = 0` and `M = 0`; when only one point
count is zero, the outputs of that direction are empty while each point of
the non-empty side still receives a fabricated `dist = 0`, `idx = 0` entry
(its scan over the empty opposite set leaves the initial state `(0,0)`). -/
theorem forward_zero_dim_outputs (x y : T ℚ) (d1 : T ℚ) (i1 : T ℤ) (d2 : T ℚ) (i2 : T ℤ)
    (h : computeForward x y = .ok (d1, i1, d2, i2)) :
    (dim x 0 = 0 ∨ (dim x 1 = 0 ∧ dim y 1 = 0) →
      d1.data = [] ∧ i1.data = [] ∧ d2.data = [] ∧ i2.data = []) ∧
    (dim y 1 = 0 →
      d1.data = List.replicate (dim x 0 * dim x 1) 0 ∧
      i1.data = List.replicate (dim x 0 * dim x 1) 0) ∧
    (dim x 1 = 0 →
      d2.data = List.replicate (dim x 0 * dim y 1) 0 ∧
      i2.data = List.replicate (dim x 0 * dim y 1) 0) := by
  obtain ⟨-, -, -, -, -, hr⟩ := computeForward_ok x y _ h
  simp only [Prod.mk.injEq] at hr
  obtain ⟨rfl, rfl, rfl, rfl⟩ := hr
  refine ⟨fun hz => ?_, fun hm0 => ?_, fun hn0 => ?_⟩
  · have hbn : dim x 0 * dim x 1 = 0 := by
      rcases hz with hz | ⟨hz1, hz2⟩
      · simp [hz]
      · simp [hz1]
    have hbm : dim x 0 * dim y 1 = 0 := by
      rcases hz with hz | ⟨hz1, hz2⟩
      · simp [hz]
      · simp [hz2]
    simp [nnsearch, hbn, hbm]
  · constructor <;>
      simp [nnsearch, hm0, nnScan, List.map_const', List.length_range]
  · constructor <;>
      simp [nnsearch, hn0, nnScan, List.map_const', List.length_range]

theorem forward_zero_dim_outputs_witness :
    (([] : List ℚ) = [] ∧ ([] : List ℤ) = [] ∧ ([] : List ℚ) = [] ∧ ([] : List ℤ) = []) ∧
    (([] : List ℚ) = List.replicate (2 * 0) 0 ∧ ([] : List ℤ) = List.replicate (2 * 0) 0) :=
  ⟨(forward_zero_dim_outputs ⟨[2,0,6],[]⟩ ⟨[2,0,6],[]⟩ ⟨[2,0],[]⟩ ⟨[2,0],[]⟩ ⟨[2,0],[]⟩
      ⟨[2,0],[]⟩ (by with_unfolding_all decide)).1 (Or.inr ⟨rfl, rfl⟩),
   (forward_zero_dim_outputs ⟨[2,0,6],[]⟩ ⟨[2,0,6],[]⟩ ⟨[2,0],[]⟩ ⟨[2,0],[]⟩ ⟨[2,0],[]⟩
      ⟨[2,0],[]⟩ (by with_unfolding_all decide)).2.1 rfl⟩

set_option maxHeartbeats 2000000 in
/-- Claim C4: every forward or backward call whose inputs violate a shape
precondition (wrong rank, trailing dimension not 6, mismatched batch
sizes, or auxiliary backward tensors not of shape `[B,N]` / `[B,M]`)
fails with an invalid-argument error, mirroring the source's check-then-
allocate order, and hence produces no output at all. -/
theorem shape_violation_rejected (x y gd1 : T ℚ) (id1 : T ℤ) (gd2 : T ℚ) (id2 : T ℤ) :
    (x.shape.length ≠ 3 ∨ x.shape.getD 2 0 ≠ 6 ∨ y.shape.length ≠ 3 ∨
        y.shape.getD 2 0 ≠ 6 ∨ y.shape.getD 0 0 ≠ x.shape.getD 0 0 →
      (∃ e, computeForward x y = .error e) ∧
      (∃ e, computeBackward x y gd1 id1 gd2 id2 = .error e)) ∧
    (gd1.shape ≠ [dim x 0, dim x 1] ∨ id1.shape ≠ [dim x 0, dim x 1] ∨
        gd2.shape ≠ [dim x 0, dim y 1] ∨ id2.shape ≠ [dim x 0, dim y 1] →
      ∃ e, computeBackward x y gd1 id1 gd2 id2 = .error e) := by
  constructor
  · intro hv
    constructor
    · unfold computeForward
      split_ifs with a1 a2 a3 a4 a5 <;>
        first
          | exact ⟨_, rfl⟩
          | (rcases hv with h | h | h | h | h
             exacts [absurd h a1, absurd h a2, absurd h a3, absurd h a4, absurd h a5])
    · unfold computeBackward
      split_ifs with a1 a2 a3 a4 a5 a6 a7 a8 a9 <;>
        first
          | exact ⟨_, rfl⟩
          | (rcases hv with h | h | h | h | h
             exacts [absurd h a1, absurd h a2, absurd h a3, absurd h a4, absurd h a5])
  · intro hv
    unfold computeBackward
    split_ifs with a1 a2 a3 a4 a5 a6 a7 a8 a9 <;>
      first
        | exact ⟨_, rfl⟩
        | (rcases hv with h | h | h | h
           exacts [absurd h a6, absurd h a7, absurd h a8, absurd h a9])

theorem shape_violation_rejected_witness :
    ((∃ e, computeForward ⟨[6],[0,0,0,0,0,0]⟩ ⟨[1,1,6],[1,0,0,0,0,0]⟩ = .error e) ∧
     (∃ e, computeBackward ⟨[6],[0,0,0,0,0,0]⟩ ⟨[1,1,6],[1,0,0,0,0,0]⟩
        ⟨[1,1],[1]⟩ ⟨[1,1],[0]⟩ ⟨[1,1],[0]⟩ ⟨[1,1],[0]⟩ = .error e)) ∧
    (∃ e, computeBackward ⟨[1,1,6],[0,0,0,0,0,0]⟩ ⟨[1,1,6],[1,0,0,0,0,0]⟩
        ⟨[1,2],[1,1]⟩ ⟨[1,1],[0]⟩ ⟨[1,1],[0]⟩ ⟨[1,1],[0]⟩ = .error e) :=
  ⟨(shape_violation_rejected ⟨[6],[0,0,0,0,0,0]⟩ ⟨[1,1,6],[1,0,0,0,0,0]⟩
      ⟨[1,1],[1]⟩ ⟨[1,1],[0]⟩ ⟨[1,1],[0]⟩ ⟨[1,1],[0]⟩).1 (Or.inl (by decide)),
   (shape_violation_rejected ⟨[1,1,6],[0,0,0,0,0,0]⟩ ⟨[1,1,6],[1,0,0,0,0,0]⟩
      ⟨[1,2],[1,1]⟩ ⟨[1,1],[0]⟩ ⟨[1,1],[0]⟩ ⟨[1,1],[0]⟩).2 (Or.inl (by decide))⟩

set_option maxHeartbeats 2000000 in
lemma computeBackward_ok (x y gd1 : T ℚ) (id1 : T ℤ) (gd2 : T ℚ) (id2 : T ℤ)
    (r : T ℚ × T ℚ) (h : computeBackward x y gd1 id1 gd2 id2 = .ok r) :
    r = (⟨[dim x 0, dim x 1, 6],
           (gradCore (dim x 0) (dim x 1) (dim y 1) x.data y.data
             gd1.data id1.data gd2.data id2.data).1⟩,
         ⟨[dim x 0, dim y 1, 6],
           (gradCore (dim x 0) (dim x 1) (dim y 1) x.data y.data
             gd1.data id1.data gd2.data id2.data).2⟩) := by
  unfold computeBackward at h
  split_ifs at h
  exact (Except.ok.inj h).symm

/-- Claim C2: in every accepted backward call whose index tensors are in
range (the claim's reading of `k = idx1[i,j]` as a point of the opposite
set presupposes this), the zero-initialised gradient buffers accumulate
exactly the claimed increments: `gradXyz1[i,j,c]` ends as the direct A→B
term `2*gradDist1[i,j]*(xyz1[i,j,c] - xyz2[i,k,c])` plus the sum of the
scattered B→A terms `-2*gradDist2[i,j2]*(xyz2[i,j2,c] - xyz1[i,j,c])` over
every point `j2` of `xyz2` whose match is `j` — so a point matched from
both directions receives the sum of both contributions — and symmetrically
for `gradXyz2` (`grad1Formula` / `grad2Formula`). -/
theorem backward_grad_accumulation (x y gd1 : T ℚ) (id1 : T ℤ) (gd2 : T ℚ) (id2 : T ℤ)
    (g1 g2 : T ℚ) (h : computeBackward x y gd1 id1 gd2 id2 = .ok (g1, g2))
    (hid1 : ∀ p, p < dim x 0 * dim x 1 →
      0 ≤ id1.data.getD p 0 ∧ id1.data.getD p 0 < (dim y 1 : ℤ))
    (hid2 : ∀ p, p < dim x 0 * dim y 1 →
      0 ≤ id2.data.getD p 0 ∧ id2.data.getD p 0 < (dim x 1 : ℤ))
    (i j c : ℕ) (hi : i < dim x 0) (hc : c < 6) :
    (j < dim x 1 →
      g1.data.getD ((i * dim x 1 + j)*6+c) 0
        = grad1Formula (dim x 1) (dim y 1) x.data y.data gd1.data id1.data
            gd2.data id2.data i j c) ∧
    (j < dim y 1 →
      g2.data.getD ((i * dim y 1 + j)*6+c) 0
        = grad2Formula (dim x 1) (dim y 1) x.data y.data gd1.data id1.data
            gd2.data id2.data i j c) := by
  have hr := computeBackward_ok x y gd1 id1 gd2 id2 _ h
  simp only [Prod.mk.injEq] at hr
  obtain ⟨rfl, rfl⟩ := hr
  constructor
  · intro hj
    exact grad1_getD _ _ _ _ _ _ _ _ _ hid2 i j c hi hj hc
  · intro hj
    exact grad2_getD _ _ _ _ _ _ _ _ _ hid1 i j c hi hj hc

theorem backward_grad_accumulation_witness :
    (-8 : ℚ) = grad1Formula 1 1 [0,0,0,0,0,0] [1,0,0,0,0,0] [1] [0] [3] [0] 0 0 0 :=
  (backward_grad_accumulation ⟨[1,1,6],[0,0,0,0,0,0]⟩ ⟨[1,1,6],[1,0,0,0,0,0]⟩
      ⟨[1,1],[1]⟩ ⟨[1,1],[0]⟩ ⟨[1,1],[3]⟩ ⟨[1,1],[0]⟩
      ⟨[1,1,6],[-8,0,0,0,0,0]⟩ ⟨[1,1,6],[8,0,0,0,0,0]⟩
      (by with_unfolding_all decide)
      (by with_unfolding_all decide) (by with_unfolding_all decide)
      0 0 0 (by decide) (by decide)).1 (by decide)

/-- Claim C6: in every accepted backward call in which `gradDist2` is
identically zero and no two distinct points of `xyz1` in the same batch
share an `idx1` value, the gradient written to a source point is the exact
negation of the gradient written to its matched point:
`gradXyz1[i,j,c] = -gradXyz2[i,k,c]` for `k = idx1[i,j]`. -/
theorem backward_antisymmetry (x y gd1 : T ℚ) (id1 : T ℤ) (gd2 : T ℚ) (id2 : T ℤ)
    (g1 g2 : T ℚ) (h : computeBackward x y gd1 id1 gd2 id2 = .ok (g1, g2))
    (hid1 : ∀ p, p < dim x 0 * dim x 1 →
      0 ≤ id1.data.getD p 0 ∧ id1.data.getD p 0 < (dim y 1 : ℤ))
    (hid2 : ∀ p, p < dim x 0 * dim y 1 →
      0 ≤ id2.data.getD p 0 ∧ id2.data.getD p 0 < (dim x 1 : ℤ))
    (hgd2 : ∀ p, p < dim x 0 * dim y 1 → gd2.data.getD p 0 = 0)
    (hinj : ∀ i', i' < dim x 0 → ∀ j1, j1 < dim x 1 → ∀ j2, j2 < dim x 1 →
      id1.data.getD (i' * dim x 1 + j1) 0 = id1.data.getD (i' * dim x 1 + j2) 0 →
      j1 = j2)
    (i j c : ℕ) (hi : i < dim x 0) (hj : j < dim x 1) (hc : c < 6) :
    g1.data.getD ((i * dim x 1 + j)*6+c) 0
      = - g2.data.getD
          ((i * dim y 1 + (id1.data.getD (i * dim x 1 + j) 0).toNat)*6+c) 0 := by
  have hr := computeBackward_ok x y gd1 id1 gd2 id2 _ h
  simp only [Prod.mk.injEq] at hr
  obtain ⟨rfl, rfl⟩ := hr
  have hvj := hid1 (i * dim x 1 + j) (flat2_lt hi hj)
  have hk : (id1.data.getD (i * dim x 1 + j) 0).toNat < dim y 1 := by omega
  rw [grad1_getD _ _ _ _ _ _ _ _ _ hid2 i j c hi hj hc,
    grad2_getD _ _ _ _ _ _ _ _ _ hid1 i _ c hi hk hc]
  rw [grad1Formula, grad2Formula]
  have hz1 : ((List.range (dim y 1)).map (fun j2 =>
      if id2.data.getD (i * dim y 1 + j2) 0 = (j : ℤ)
      then -pass2Val (dim x 1) (dim y 1) x.data y.data gd2.data id2.data i j2 c
      else 0)).sum = 0 := by
    refine sum_map_range_zero _ _ ?_
    intro j2 hj2
    have hp2 : pass2Val (dim x 1) (dim y 1) x.data y.data gd2.data id2.data i j2 c = 0 := by
      rw [pass2Val, hgd2 (i * dim y 1 + j2) (flat2_lt hi hj2)]
      ring
    rw [hp2]
    simp
  have hz2 : pass2Val (dim x 1) (dim y 1) x.data y.data gd2.data id2.data i
      (id1.data.getD (i * dim x 1 + j) 0).toNat c = 0 := by
    rw [pass2Val, hgd2 _ (flat2_lt hi hk)]
    ring
  have hs : ((List.range (dim x 1)).map (fun j1 =>
      if id1.data.getD (i * dim x 1 + j1) 0
          = ((id1.data.getD (i * dim x 1 + j) 0).toNat : ℤ)
      then -pass1Val (dim x 1) (dim y 1) x.data y.data gd1.data id1.data i j1 c
      else 0)).sum
      = -pass1Val (dim x 1) (dim y 1) x.data y.data gd1.data id1.data i j c := by
    have hcast : ((id1.data.getD (i * dim x 1 + j) 0).toNat : ℤ)
        = id1.data.getD (i * dim x 1 + j) 0 := Int.toNat_of_nonneg hvj.1
    rw [sum_map_range_single (dim x 1) _ j hj ?hz]
    case hz =>
      intro j1 hj1 hj1j
      rw [if_neg ?_]
      rw [hcast]
      intro hcond
      exact hj1j (hinj i hi j1 hj1 j hj hcond)
    rw [if_pos (by rw [hcast])]
  rw [hz1, hz2, hs]
  ring

theorem backward_antisymmetry_witness :
    (⟨[1,1,6],[-2,0,0,0,0,0]⟩ : T ℚ).data.getD 0 0
      = - (⟨[1,1,6],[2,0,0,0,0,0]⟩ : T ℚ).data.getD 0 0 :=
  backward_antisymmetry ⟨[1,1,6],[0,0,0,0,0,0]⟩ ⟨[1,1,6],[1,0,0,0,0,0]⟩
    ⟨[1,1],[1]⟩ ⟨[1,1],[0]⟩ ⟨[1,1],[0]⟩ ⟨[1,1],[0]⟩
    ⟨[1,1,6],[-2,0,0,0,0,0]⟩ ⟨[1,1,6],[2,0,0,0,0,0]⟩
    (by with_unfolding_all decide)
    (by with_unfolding_all decide) (by with_unfolding_all decide)
    (by with_unfolding_all decide) (by decide)
    0 0 0 (by decide) (by decide) (by decide)

/-- Claim C10: the backward pass performs no range validation on the index
tensors.  Every `grad_xyz1` / `grad_xyz2` write position (which is also the
position of the corresponding opposite-set coordinate read) is in bounds
exactly under the unstated precondition that all `idx1` entries lie in
`[0,M)` and all `idx2` entries in `[0,N)`; with an out-of-range index the
out-of-bounds access is reachable even though every shape check passes:
the concrete call with `B = N = M = 1` and `idx1 = [1]` is accepted
(returns `.ok`), yet its scatter write position `6` lies outside the
6-element `grad_xyz2` buffer. -/
theorem backward_unvalidated_index_bounds :
    (∀ b n m : ℕ, ∀ x1 x2 gd1 : List ℚ, ∀ id1 : List ℤ, ∀ gd2 : List ℚ, ∀ id2 : List ℤ,
      (∀ p, p < b*n → 0 ≤ id1.getD p 0 ∧ id1.getD p 0 < (m : ℤ)) →
      (∀ p, p < b*m → 0 ≤ id2.getD p 0 ∧ id2.getD p 0 < (n : ℤ)) →
      (∀ q ∈ g1WritePositions b n m x1 x2 gd1 id1 gd2 id2,
        0 ≤ q ∧ q < ((b*n*6 : ℕ) : ℤ)) ∧
      (∀ q ∈ g2WritePositions b n m x1 x2 gd1 id1 gd2 id2,
        0 ≤ q ∧ q < ((b*m*6 : ℕ) : ℤ))) ∧
    ((∃ r, computeBackward ⟨[1,1,6],[0,0,0,0,0,0]⟩ ⟨[1,1,6],[1,0,0,0,0,0]⟩
        ⟨[1,1],[1]⟩ ⟨[1,1],[1]⟩ ⟨[1,1],[0]⟩ ⟨[1,1],[0]⟩ = .ok r) ∧
      (6 : ℤ) ∈ g2WritePositions 1 1 1 [0,0,0,0,0,0] [1,0,0,0,0,0] [1] [1] [0] [0] ∧
      ¬ ((6 : ℤ) < ((1*1*6 : ℕ) : ℤ))) := by
  constructor
  · intro b n m x1 x2 gd1 id1 gd2 id2 hid1 hid2
    constructor
    · intro q hq
      rw [g1WritePositions, List.mem_flatMap] at hq
      obtain ⟨i', hi'm, hq⟩ := hq
      rw [List.mem_range] at hi'm
      rw [List.mem_append] at hq
      rcases hq with hq | hq
      · rw [List.mem_flatMap] at hq
        obtain ⟨j', hj'm, hq⟩ := hq
        rw [List.mem_range] at hj'm
        simp only [upds_g1_direct, List.map_cons, List.map_nil, List.mem_cons,
          List.not_mem_nil, or_false] at hq
        have h0 := flat3_lt hi'm hj'm (show (0:ℕ) < 6 by omega)
        have h1 := flat3_lt hi'm hj'm (show (1:ℕ) < 6 by omega)
        have h2 := flat3_lt hi'm hj'm (show (2:ℕ) < 6 by omega)
        have h3 := flat3_lt hi'm hj'm (show (3:ℕ) < 6 by omega)
        have h4 := flat3_lt hi'm hj'm (show (4:ℕ) < 6 by omega)
        have h5 := flat3_lt hi'm hj'm (show (5:ℕ) < 6 by omega)
        rcases hq with rfl | rfl | rfl | rfl | rfl | rfl <;> constructor <;> omega
      · rw [List.mem_flatMap] at hq
        obtain ⟨j', hj'm, hq⟩ := hq
        rw [List.mem_range] at hj'm
        simp only [upds_g1_scatter, List.map_cons, List.map_nil, List.mem_cons,
          List.not_mem_nil, or_false] at hq
        have hv := hid2 (i'*m+j') (flat2_lt hi'm hj'm)
        have hvn : (id2.getD (i'*m+j') 0).toNat < n := by omega
        have h0 := flat3_lt hi'm hvn (show (0:ℕ) < 6 by omega)
        have h1 := flat3_lt hi'm hvn (show (1:ℕ) < 6 by omega)
        have h2 := flat3_lt hi'm hvn (show (2:ℕ) < 6 by omega)
        have h3 := flat3_lt hi'm hvn (show (3:ℕ) < 6 by omega)
        have h4 := flat3_lt hi'm hvn (show (4:ℕ) < 6 by omega)
        have h5 := flat3_lt hi'm hvn (show (5:ℕ) < 6 by omega)
        rcases hq with rfl | rfl | rfl | rfl | rfl | rfl <;> constructor <;> omega
    · intro q hq
      rw [g2WritePositions, List.mem_flatMap] at hq
      obtain ⟨i', hi'm, hq⟩ := hq
      rw [List.mem_range] at hi'm
      rw [List.mem_append] at hq
      rcases hq with hq | hq
      · rw [List.mem_flatMap] at hq
        obtain ⟨j', hj'm, hq⟩ := hq
        rw [List.mem_range] at hj'm
        simp only [upds_g2_scatter, List.map_cons, List.map_nil, List.mem_cons,
          List.not_mem_nil, or_false] at hq
        have hv := hid1 (i'*n+j') (flat2_lt hi'm hj'm)
        have hvn : (id1.getD (i'*n+j') 0).toNat < m := by omega
        have h0 := flat3_lt hi'm hvn (show (0:ℕ) < 6 by omega)
        have h1 := flat3_lt hi'm hvn (show (1:ℕ) < 6 by omega)
        have h2 := flat3_lt hi'm hvn (show (2:ℕ) < 6 by omega)
        have h3 := flat3_lt hi'm hvn (show (3:ℕ) < 6 by omega)
        have h4 := flat3_lt hi'm hvn (show (4:ℕ) < 6 by omega)
        have h5 := flat3_lt hi'm hvn (show (5:ℕ) < 6 by omega)
        rcases hq with rfl | rfl | rfl | rfl | rfl | rfl <;> constructor <;> omega
      · rw [List.mem_flatMap] at hq
        obtain ⟨j', hj'm, hq⟩ := hq
        rw [List.mem_range] at hj'm
        simp only [upds_g2_direct, List.map_cons, List.map_nil, List.mem_cons,
          List.not_mem_nil, or_false] at hq
        have h0 := flat3_lt hi'm hj'm (show (0:ℕ) < 6 by omega)
        have h1 := flat3_lt hi'm hj'm (show (1:ℕ) < 6 by omega)
        have h2 := flat3_lt hi'm hj'm (show (2:ℕ) < 6 by omega)
        have h3 := flat3_lt hi'm hj'm (show (3:ℕ) < 6 by omega)
        have h4 := flat3_lt hi'm hj'm (show (4:ℕ) < 6 by omega)
        have h5 := flat3_lt hi'm hj'm (show (5:ℕ) < 6 by omega)
        rcases hq with rfl | rfl | rfl | rfl | rfl | rfl <;> constructor <;> omega
  · refine ⟨⟨(⟨[1,1,6],[0,0,0,0,0,0]⟩, ⟨[1,1,6],[0,0,0,0,0,0]⟩), ?_⟩, ?_, by decide⟩
    · with_unfolding_all decide
    · with_unfolding_all decide

theorem backward_unvalidated_index_bounds_witness :
    0 ≤ (0 : ℤ) ∧ (0 : ℤ) < ((1*1*6 : ℕ) : ℤ) :=
  (backward_unvalidated_index_bounds.1 1 1 1 [0,0,0,0,0,0] [1,0,0,0,0,0] [0] [0] [0] [0]
      (by with_unfolding_all decide) (by with_unfolding_all decide)).2 0
    (by with_unfolding_all decide)

lemma two_zpow_mono {a b : ℤ} (h : a ≤ b) : (2:ℚ)^a ≤ (2:ℚ)^b :=
  zpow_le_zpow_right₀ (by norm_num) h

lemma pow2z_eq_zpow (k : ℤ) : pow2z k = (2:ℚ)^k := by
  cases k with
  | ofNat n =>
    show ((2^n : ℕ) : ℚ) = (2:ℚ)^(n:ℤ)
    rw [zpow_natCast]
    push_cast
    ring
  | negSucc n =>
    show 1 / ((2^(n+1) : ℕ) : ℚ) = (2:ℚ)^(Int.negSucc n)
    rw [zpow_negSucc]
    push_cast
    rw [one_div]

lemma qabs_eq_abs (q : ℚ) : qabs q = |q| := by
  rcases lt_or_le q 0 with h | h
  · simp only [qabs, if_pos h]
    exact (abs_of_neg h).symm
  · simp only [qabs, if_neg (not_lt.mpr h)]
    exact (abs_of_nonneg h).symm

lemma qabs_of_nonneg {q : ℚ} (h : 0 ≤ q) : qabs q = q := by
  simp only [qabs, if_neg (not_lt.mpr h)]

lemma log2p_eq (fuel : ℕ) (k : ℤ) (q : ℚ) (h1 : (2:ℚ)^k ≤ q) (h2 : q < (2:ℚ)^(k+1))
    (hf : k.natAbs < fuel) : log2p fuel q = k := by
  induction fuel generalizing k q with
  | zero => omega
  | succ fuel ih =>
    rw [log2p]
    by_cases hq1 : q < 1
    · have hk : k < 0 := by
        by_contra hk0
        push_neg at hk0
        have h := two_zpow_mono hk0
        rw [zpow_zero] at h
        linarith
      rw [if_pos hq1]
      have e1 : (2:ℚ)^(k+1) = (2:ℚ)^k * 2 := by
        rw [zpow_add₀ (by norm_num : (2:ℚ) ≠ 0), zpow_one]
      have e2 : (2:ℚ)^(k+1+1) = (2:ℚ)^(k+1) * 2 := by
        rw [zpow_add₀ (by norm_num : (2:ℚ) ≠ 0) (k+1) 1, zpow_one]
      have h1' : (2:ℚ)^(k+1) ≤ 2*q := by rw [e1]; linarith
      have h2' : 2*q < (2:ℚ)^(k+1+1) := by rw [e2]; linarith
      rw [ih (k+1) (2*q) h1' h2' (by omega)]
      omega
    · push_neg at hq1
      by_cases hq2 : q < 2
      · rw [if_neg (not_lt.mpr hq1), if_pos hq2]
        by_contra hk
        rcases lt_or_gt_of_ne (Ne.symm hk) with hlt | hgt
        · have h := two_zpow_mono (show k+1 ≤ 0 by omega)
          rw [zpow_zero] at h
          linarith
        · have h := two_zpow_mono (show (1:ℤ) ≤ k from hgt)
          rw [zpow_one] at h
          linarith
      · push_neg at hq2
        rw [if_neg (not_lt.mpr hq1), if_neg (not_lt.mpr hq2)]
        have hk1 : 1 ≤ k := by
          by_contra hk0
          push_neg at hk0
          have h := two_zpow_mono (show k+1 ≤ 1 by omega)
          rw [zpow_one] at h
          linarith
        have e1 : (2:ℚ)^k = (2:ℚ)^(k-1) * 2 := by
          have h := zpow_add₀ (by norm_num : (2:ℚ) ≠ 0) (k-1) 1
          rw [zpow_one] at h
          rw [← h]
          congr 1
          omega
        have h1' : (2:ℚ)^(k-1) ≤ q/2 := by
          rw [e1] at h1
          linarith
        have h2' : q/2 < (2:ℚ)^(k-1+1) := by
          have e2 : (2:ℚ)^(k-1+1) = (2:ℚ)^k := by
            congr 1
            omega
          have e3 : (2:ℚ)^(k+1) = (2:ℚ)^k * 2 := by
            rw [zpow_add₀ (by norm_num : (2:ℚ) ≠ 0), zpow_one]
          rw [e2]
          rw [e3] at h2
          linarith
        rw [ih (k-1) (q/2) h1' h2' (by omega)]
        omega

lemma ilog2_of (q : ℚ) (k : ℤ) (h1 : (2:ℚ)^k ≤ q) (h2 : q < (2:ℚ)^(k+1))
    (hk : k.natAbs < 1100) : ilog2 q = k := log2p_eq 1100 k q h1 h2 hk

lemma rnd_zero (prec : ℕ) : rnd prec 0 = 0 := by simp [rnd]

lemma rnd_eq_of_floor (prec : ℕ) (q : ℚ) (k f : ℤ) (hq : q ≠ 0)
    (hlog : ilog2 (qabs q) = k)
    (hf : ⌊q * pow2z ((prec:ℤ) - 1 - k)⌋ = f) :
    rnd prec q =
      ((if q * pow2z ((prec:ℤ) - 1 - k) - (f:ℚ) < 1/2 then f
        else if (1:ℚ)/2 < q * pow2z ((prec:ℤ) - 1 - k) - (f:ℚ) then f + 1
        else if f % 2 = 0 then f else f + 1 : ℤ) : ℚ) * pow2z (k - ((prec:ℤ)-1)) := by
  simp only [rnd, hlog]
  rw [if_neg hq]
  rw [show -(k - ((prec:ℤ) - 1)) = (prec:ℤ) - 1 - k from by ring, hf]

lemma rnd_intCast (prec : ℕ) (hp : 1 ≤ prec) (hp2 : prec ≤ 1099) (z : ℤ)
    (hz : z.natAbs < 2^prec) : rnd prec (z:ℚ) = (z:ℚ) := by
  rcases eq_or_ne z 0 with rfl | hz0
  · simp [rnd]
  · set a : ℕ := z.natAbs with ha
    have ha0 : a ≠ 0 := Int.natAbs_ne_zero.mpr hz0
    set k : ℕ := Nat.log 2 a with hkdef
    have hk1 : 2^k ≤ a := Nat.pow_log_le_self 2 ha0
    have hk2 : a < 2^(k+1) := Nat.lt_pow_succ_log_self (by norm_num) a
    have hkp : k < prec := by
      by_contra hcon
      push_neg at hcon
      exact absurd hz (not_lt.mpr (le_trans (Nat.pow_le_pow_right (by norm_num) hcon) hk1))
    have habs : qabs (z:ℚ) = (a:ℚ) := by
      rw [qabs_eq_abs, ← Int.cast_abs, Int.abs_eq_natAbs]
      norm_cast
    have hlog : ilog2 (qabs (z:ℚ)) = (k:ℤ) := by
      rw [habs]
      apply ilog2_of
      · rw [zpow_natCast]
        exact_mod_cast hk1
      · rw [show ((k:ℤ)+1) = ((k+1:ℕ):ℤ) from by push_cast; ring, zpow_natCast]
        exact_mod_cast hk2
      · omega
    set t : ℕ := prec - 1 - k with htdef
    have hte : (prec:ℤ) - 1 - (k:ℤ) = (t:ℤ) := by omega
    have hpow : pow2z ((prec:ℤ) - 1 - (k:ℤ)) = ((2^t : ℕ) : ℚ) := by
      rw [hte]
      rfl
    have hsint : (z:ℚ) * pow2z ((prec:ℤ) - 1 - (k:ℤ)) = ((z * 2^t : ℤ) : ℚ) := by
      rw [hpow]
      push_cast
      ring
    have hf : ⌊(z:ℚ) * pow2z ((prec:ℤ) - 1 - (k:ℤ))⌋ = z * 2^t := by
      rw [hsint, Int.floor_intCast]
    rw [rnd_eq_of_floor prec (z:ℚ) (k:ℤ) (z * 2^t) (by exact_mod_cast hz0) hlog hf]
    rw [hsint, sub_self, if_pos (by norm_num : (0:ℚ) < 1/2)]
    rw [show (k:ℤ) - ((prec:ℤ) - 1) = -(t:ℤ) from by omega]
    rw [pow2z_eq_zpow, zpow_neg, zpow_natCast]
    push_cast
    rw [mul_inv_cancel_right₀ (by positivity)]

lemma rnd24_small (q : ℚ) (z : ℤ) (hq : q = (z:ℚ)) (hz : z.natAbs < 16777216) :
    rnd 24 q = q := by
  rw [hq]
  exact rnd_intCast 24 (by norm_num) (by norm_num) z
    (by rw [show (2:ℕ)^24 = 16777216 from by norm_num]; exact hz)

lemma rnd53_small (q : ℚ) (z : ℤ) (hq : q = (z:ℚ)) (hz : z.natAbs < 9007199254740992) :
    rnd 53 q = q := by
  rw [hq]
  exact rnd_intCast 53 (by norm_num) (by norm_num) z
    (by rw [show (2:ℕ)^53 = 9007199254740992 from by norm_num]; exact hz)

lemma rnd24_16785409 : rnd 24 (16785409:ℚ) = 16785408 := by
  have hlog : ilog2 (qabs (16785409:ℚ)) = 24 := by
    rw [qabs_of_nonneg (by norm_num)]
    exact ilog2_of _ 24 (by norm_num) (by norm_num) (by decide)
  have hf : ⌊(16785409:ℚ) * pow2z (((24:ℕ):ℤ) - 1 - 24)⌋ = 8392704 := by
    rw [pow2z_eq_zpow]
    norm_num
  rw [rnd_eq_of_floor 24 16785409 24 8392704 (by norm_num) hlog hf]
  rw [pow2z_eq_zpow, pow2z_eq_zpow]
  norm_num

lemma rnd24_16785408 : rnd 24 (16785408:ℚ) = 16785408 := by
  have hlog : ilog2 (qabs (16785408:ℚ)) = 24 := by
    rw [qabs_of_nonneg (by norm_num)]
    exact ilog2_of _ 24 (by norm_num) (by norm_num) (by decide)
  have hf : ⌊(16785408:ℚ) * pow2z (((24:ℕ):ℤ) - 1 - 24)⌋ = 8392704 := by
    rw [pow2z_eq_zpow]
    norm_num
  rw [rnd_eq_of_floor 24 16785408 24 8392704 (by norm_num) hlog hf]
  rw [pow2z_eq_zpow, pow2z_eq_zpow]
  norm_num

lemma rnd24_16785410 : rnd 24 (16785410:ℚ) = 16785410 := by
  have hlog : ilog2 (qabs (16785410:ℚ)) = 24 := by
    rw [qabs_of_nonneg (by norm_num)]
    exact ilog2_of _ 24 (by norm_num) (by norm_num) (by decide)
  have hf : ⌊(16785410:ℚ) * pow2z (((24:ℕ):ℤ) - 1 - 24)⌋ = 8392705 := by
    rw [pow2z_eq_zpow]
    norm_num
  rw [rnd_eq_of_floor 24 16785410 24 8392705 (by norm_num) hlog hf]
  rw [pow2z_eq_zpow, pow2z_eq_zpow]
  norm_num

lemma sqd6F_cex_eval : sqd6F [0,0,0,0,0,0] [4097,1,0,0,0,0] 1 1 0 0 0 = 16785408 := by
  have gA : ∀ c : ℕ, ([0,0,0,0,0,0] : List ℚ).getD c 0 = 0 := by
    intro c
    rcases c with _|_|_|_|_|_|c <;> rfl
  have gB0 : ([4097,1,0,0,0,0] : List ℚ).getD ((0*1+0)*6+0) 0 = 4097 := rfl
  have gB1 : ([4097,1,0,0,0,0] : List ℚ).getD ((0*1+0)*6+1) 0 = 1 := rfl
  have gB2 : ([4097,1,0,0,0,0] : List ℚ).getD ((0*1+0)*6+2) 0 = 0 := rfl
  have gB3 : ([4097,1,0,0,0,0] : List ℚ).getD ((0*1+0)*6+3) 0 = 0 := rfl
  have gB4 : ([4097,1,0,0,0,0] : List ℚ).getD ((0*1+0)*6+4) 0 = 0 := rfl
  have gB5 : ([4097,1,0,0,0,0] : List ℚ).getD ((0*1+0)*6+5) 0 = 0 := rfl
  simp only [sqd6F, gA, gB0, gB1, gB2, gB3, gB4, gB5]
  have hs0 : fsub (4097:ℚ) 0 = 4097 := by
    simp only [fsub, sub_zero]
    exact rnd24_small 4097 4097 (by norm_num) (by decide)
  have hs1 : fsub (1:ℚ) 0 = 1 := by
    simp only [fsub, sub_zero]
    exact rnd24_small 1 1 (by norm_num) (by decide)
  have hs2 : fsub (0:ℚ) 0 = 0 := by
    simp only [fsub, sub_zero]
    exact rnd_zero 24
  rw [hs0, hs1, hs2]
  have hm0 : fmul (4097:ℚ) 4097 = 16785408 := by
    simp only [fmul]
    rw [show (4097:ℚ)*4097 = 16785409 from by norm_num]
    exact rnd24_16785409
  have hm1 : fmul (1:ℚ) 1 = 1 := by
    simp only [fmul, mul_one]
    exact rnd24_small 1 1 (by norm_num) (by decide)
  have hm2 : fmul (0:ℚ) 0 = 0 := by
    simp only [fmul, mul_zero]
    exact rnd_zero 24
  rw [hm0, hm1, hm2]
  have ha1 : fadd (16785408:ℚ) 1 = 16785408 := by
    simp only [fadd]
    rw [show (16785408:ℚ)+1 = 16785409 from by norm_num]
    exact rnd24_16785409
  have ha2 : fadd (16785408:ℚ) 0 = 16785408 := by
    simp only [fadd, add_zero]
    exact rnd24_16785408
  rw [ha1, ha2, ha2, ha2, ha2]

lemma sqd6D_cex_eval :
    sqd6D_specModel [0,0,0,0,0,0] [4097,1,0,0,0,0] 1 1 0 0 0 = 16785410 := by
  have gA : ∀ c : ℕ, ([0,0,0,0,0,0] : List ℚ).getD c 0 = 0 := by
    intro c
    rcases c with _|_|_|_|_|_|c <;> rfl
  have gB0 : ([4097,1,0,0,0,0] : List ℚ).getD ((0*1+0)*6+0) 0 = 4097 := rfl
  have gB1 : ([4097,1,0,0,0,0] : List ℚ).getD ((0*1+0)*6+1) 0 = 1 := rfl
  have gB2 : ([4097,1,0,0,0,0] : List ℚ).getD ((0*1+0)*6+2) 0 = 0 := rfl
  have gB3 : ([4097,1,0,0,0,0] : List ℚ).getD ((0*1+0)*6+3) 0 = 0 := rfl
  have gB4 : ([4097,1,0,0,0,0] : List ℚ).getD ((0*1+0)*6+4) 0 = 0 := rfl
  have gB5 : ([4097,1,0,0,0,0] : List ℚ).getD ((0*1+0)*6+5) 0 = 0 := rfl
  simp only [sqd6D_specModel, gA, gB0, gB1, gB2, gB3, gB4, gB5]
  have hs0 : dsub (4097:ℚ) 0 = 4097 := by
    simp only [dsub, sub_zero]
    exact rnd53_small 4097 4097 (by norm_num) (by decide)
  have hs1 : dsub (1:ℚ) 0 = 1 := by
    simp only [dsub, sub_zero]
    exact rnd53_small 1 1 (by norm_num) (by decide)
  have hs2 : dsub (0:ℚ) 0 = 0 := by
    simp only [dsub, sub_zero]
    exact rnd_zero 53
  rw [hs0, hs1, hs2]
  have hm0 : dmul (4097:ℚ) 4097 = 16785409 := by
    simp only [dmul]
    rw [show (4097:ℚ)*4097 = 16785409 from by norm_num]
    exact rnd53_small 16785409 16785409 (by norm_num) (by decide)
  have hm1 : dmul (1:ℚ) 1 = 1 := by
    simp only [dmul, mul_one]
    exact rnd53_small 1 1 (by norm_num) (by decide)
  have hm2 : dmul (0:ℚ) 0 = 0 := by
    simp only [dmul, mul_zero]
    exact rnd_zero 53
  rw [hm0, hm1, hm2]
  have ha1 : dadd (16785409:ℚ) 1 = 16785410 := by
    simp only [dadd]
    rw [show (16785409:ℚ)+1 = 16785410 from by norm_num]
    exact rnd53_small 16785410 16785410 (by norm_num) (by decide)
  have ha2 : dadd (16785410:ℚ) 0 = 16785410 := by
    simp only [dadd, add_zero]
    exact rnd53_small 16785410 16785410 (by norm_num) (by decide)
  rw [ha1, ha2, ha2, ha2, ha2]

lemma fsub_int (u v : ℤ) (hu : u.natAbs ≤ 512) (hv : v.natAbs ≤ 512) :
    fsub (u:ℚ) (v:ℚ) = ((u - v : ℤ):ℚ) := by
  simp only [fsub]
  rw [show (u:ℚ) - (v:ℚ) = ((u - v : ℤ):ℚ) from by push_cast; ring]
  exact rnd_intCast 24 (by norm_num) (by norm_num) (u-v)
    (by rw [show (2:ℕ)^24 = 16777216 from by norm_num]; omega)

lemma fmul_int (u : ℤ) (hu : u.natAbs ≤ 1024) :
    fmul (u:ℚ) (u:ℚ) = ((u * u : ℤ):ℚ) := by
  simp only [fmul]
  rw [show (u:ℚ) * (u:ℚ) = ((u * u : ℤ):ℚ) from by push_cast; ring]
  refine rnd_intCast 24 (by norm_num) (by norm_num) (u*u) ?_
  rw [Int.natAbs_mul]
  calc u.natAbs * u.natAbs ≤ 1024 * 1024 := Nat.mul_le_mul hu hu
    _ < 2^24 := by norm_num

lemma fadd_int (u v : ℤ) (hu : u.natAbs ≤ 8388608) (hv : v.natAbs ≤ 8388607) :
    fadd (u:ℚ) (v:ℚ) = ((u + v : ℤ):ℚ) := by
  simp only [fadd]
  rw [show (u:ℚ) + (v:ℚ) = ((u + v : ℤ):ℚ) from by push_cast; ring]
  exact rnd_intCast 24 (by norm_num) (by norm_num) (u+v)
    (by rw [show (2:ℕ)^24 = 16777216 from by norm_num]; omega)

/-- Claim C9 counterexample: with source coordinates `(0,0,0,0,0,0)` and
candidate coordinates `(4097,1,0,0,0,0)`, the distance the code computes —
every subtraction, square and addition being a binary32 (`float`) operation,
because all operands of `x2*x2+y2*y2+...` have type `float` and only the
finished sum is widened to `double` at the assignment `double d = ...` —
is `16785408` (`4097²=16785409` rounds to `16785408` in binary32, and the
subsequent `+1` is absorbed), while the spec's double-precision accumulation
gives the exact `16785410`; the two disagree even after the double result is
rounded back to binary32 (`16785410` is exactly representable there). -/
theorem sqd6_double_accumulation_counterexample :
    sqd6F [0,0,0,0,0,0] [4097,1,0,0,0,0] 1 1 0 0 0 = 16785408 ∧
    sqd6D_specModel [0,0,0,0,0,0] [4097,1,0,0,0,0] 1 1 0 0 0 = 16785410 ∧
    rnd 24 (sqd6D_specModel [0,0,0,0,0,0] [4097,1,0,0,0,0] 1 1 0 0 0) ≠
      sqd6F [0,0,0,0,0,0] [4097,1,0,0,0,0] 1 1 0 0 0 := by
  refine ⟨sqd6F_cex_eval, sqd6D_cex_eval, ?_⟩
  rw [sqd6D_cex_eval, sqd6F_cex_eval, rnd24_16785410]
  norm_num

lemma sub_natAbs_le (u v : ℤ) (hu : u.natAbs ≤ 512) (hv : v.natAbs ≤ 512) :
    (u - v).natAbs ≤ 1024 := by omega

lemma sq_natAbs_le (u v : ℤ) (hu : u.natAbs ≤ 512) (hv : v.natAbs ≤ 512) :
    ((u-v)*(u-v)).natAbs ≤ 1048576 := by
  rw [Int.natAbs_mul]
  calc (u-v).natAbs * (u-v).natAbs ≤ 1024*1024 :=
        Nat.mul_le_mul (sub_natAbs_le u v hu hv) (sub_natAbs_le u v hu hv)
    _ ≤ 1048576 := by norm_num

set_option maxHeartbeats 2000000 in
/-- Claim C9 (amended): the per-pair squared distance is the sum over all 6
coordinates of squared coordinate differences, but it is evaluated entirely
in single precision (binary32): each coordinate difference, each square and
each left-to-right addition of `x2*x2+y2*y2+z2*z2+x2_1*x2_1+y2_1*y2_1+z2_1*z2_1`
rounds to binary32, and only the finished single-precision sum is widened to
`double` when initialising `d` — nothing is accumulated in double precision.
In particular the computed value `sqd6F` agrees with the exact rational
squared distance `sqd6` whenever all twelve participating coordinates are
integers of magnitude at most 512 (so every intermediate fits in 24 bits),
while the counterexample shows it differs from double-precision
accumulation already at coordinate magnitude 4097. -/
theorem sqd6F_exact_on_small_ints (x1 x2 : List ℚ) (n m i j k : ℕ)
    (h1 : ∀ c, c < 6 → ∃ z : ℤ, z.natAbs ≤ 512 ∧ x1.getD ((i*n+j)*6+c) 0 = (z:ℚ))
    (h2 : ∀ c, c < 6 → ∃ z : ℤ, z.natAbs ≤ 512 ∧ x2.getD ((i*m+k)*6+c) 0 = (z:ℚ)) :
    sqd6F x1 x2 n m i j k = sqd6 x1 x2 n m i j k := by
  obtain ⟨a0, ha0, he0⟩ := h1 0 (by norm_num)
  obtain ⟨a1, ha1, he1⟩ := h1 1 (by norm_num)
  obtain ⟨a2, ha2, he2⟩ := h1 2 (by norm_num)
  obtain ⟨a3, ha3, he3⟩ := h1 3 (by norm_num)
  obtain ⟨a4, ha4, he4⟩ := h1 4 (by norm_num)
  obtain ⟨a5, ha5, he5⟩ := h1 5 (by norm_num)
  obtain ⟨b0, hb0, hg0⟩ := h2 0 (by norm_num)
  obtain ⟨b1, hb1, hg1⟩ := h2 1 (by norm_num)
  obtain ⟨b2, hb2, hg2⟩ := h2 2 (by norm_num)
  obtain ⟨b3, hb3, hg3⟩ := h2 3 (by norm_num)
  obtain ⟨b4, hb4, hg4⟩ := h2 4 (by norm_num)
  obtain ⟨b5, hb5, hg5⟩ := h2 5 (by norm_num)
  simp only [sqd6F, sqd6, he0, he1, he2, he3, he4, he5, hg0, hg1, hg2, hg3, hg4, hg5]
  rw [fsub_int b0 a0 hb0 ha0, fsub_int b1 a1 hb1 ha1, fsub_int b2 a2 hb2 ha2,
    fsub_int b3 a3 hb3 ha3, fsub_int b4 a4 hb4 ha4, fsub_int b5 a5 hb5 ha5]
  rw [fmul_int (b0-a0) (sub_natAbs_le b0 a0 hb0 ha0),
    fmul_int (b1-a1) (sub_natAbs_le b1 a1 hb1 ha1),
    fmul_int (b2-a2) (sub_natAbs_le b2 a2 hb2 ha2),
    fmul_int (b3-a3) (sub_natAbs_le b3 a3 hb3 ha3),
    fmul_int (b4-a4) (sub_natAbs_le b4 a4 hb4 ha4),
    fmul_int (b5-a5) (sub_natAbs_le b5 a5 hb5 ha5)]
  have hq0 := sq_natAbs_le b0 a0 hb0 ha0
  have hq1 := sq_natAbs_le b1 a1 hb1 ha1
  have hq2 := sq_natAbs_le b2 a2 hb2 ha2
  have hq3 := sq_natAbs_le b3 a3 hb3 ha3
  have hq4 := sq_natAbs_le b4 a4 hb4 ha4
  have hq5 := sq_natAbs_le b5 a5 hb5 ha5
  have hs01 : ((b0-a0)*(b0-a0) + (b1-a1)*(b1-a1)).natAbs ≤ 2097152 :=
    le_trans (Int.natAbs_add_le _ _) (le_trans (Nat.add_le_add hq0 hq1) (by norm_num))
  have hs012 : ((b0-a0)*(b0-a0) + (b1-a1)*(b1-a1) + (b2-a2)*(b2-a2)).natAbs ≤ 3145728 :=
    le_trans (Int.natAbs_add_le _ _) (le_trans (Nat.add_le_add hs01 hq2) (by norm_num))
  have hs0123 :
      ((b0-a0)*(b0-a0) + (b1-a1)*(b1-a1) + (b2-a2)*(b2-a2) + (b3-a3)*(b3-a3)).natAbs
        ≤ 4194304 :=
    le_trans (Int.natAbs_add_le _ _) (le_trans (Nat.add_le_add hs012 hq3) (by norm_num))
  have hs01234 :
      ((b0-a0)*(b0-a0) + (b1-a1)*(b1-a1) + (b2-a2)*(b2-a2) + (b3-a3)*(b3-a3)
        + (b4-a4)*(b4-a4)).natAbs ≤ 5242880 :=
    le_trans (Int.natAbs_add_le _ _) (le_trans (Nat.add_le_add hs0123 hq4) (by norm_num))
  rw [fadd_int ((b0-a0)*(b0-a0)) ((b1-a1)*(b1-a1))
    (le_trans hq0 (by norm_num)) (le_trans hq1 (by norm_num))]
  rw [fadd_int ((b0-a0)*(b0-a0) + (b1-a1)*(b1-a1)) ((b2-a2)*(b2-a2))
    (le_trans hs01 (by norm_num)) (le_trans hq2 (by norm_num))]
  rw [fadd_int ((b0-a0)*(b0-a0) + (b1-a1)*(b1-a1) + (b2-a2)*(b2-a2)) ((b3-a3)*(b3-a3))
    (le_trans hs012 (by norm_num)) (le_trans hq3 (by norm_num))]
  rw [fadd_int ((b0-a0)*(b0-a0) + (b1-a1)*(b1-a1) + (b2-a2)*(b2-a2) + (b3-a3)*(b3-a3))
    ((b4-a4)*(b4-a4)) (le_trans hs0123 (by norm_num)) (le_trans hq4 (by norm_num))]
  rw [fadd_int
    ((b0-a0)*(b0-a0) + (b1-a1)*(b1-a1) + (b2-a2)*(b2-a2) + (b3-a3)*(b3-a3) + (b4-a4)*(b4-a4))
    ((b5-a5)*(b5-a5)) (le_trans hs01234 (by norm_num)) (le_trans hq5 (by norm_num))]
  push_cast
  ring

theorem sqd6F_exact_on_small_ints_witness :
    sqd6F [0,0,0,0,0,0] [3,4,0,0,0,0] 1 1 0 0 0
      = sqd6 [0,0,0,0,0,0] [3,4,0,0,0,0] 1 1 0 0 0 :=
  sqd6F_exact_on_small_ints [0,0,0,0,0,0] [3,4,0,0,0,0] 1 1 0 0 0
    (by
      intro c hc
      refine ⟨0, by norm_num, ?_⟩
      interval_cases c <;> with_unfolding_all decide)
    (by
      intro c hc
      interval_cases c
      · exact ⟨3, by norm_num, by with_unfolding_all decide⟩
      · exact ⟨4, by norm_num, by with_unfolding_all decide⟩
      · exact ⟨0, by norm_num, by with_unfolding_all decide⟩
      · exact ⟨0, by norm_num, by with_unfolding_all decide⟩
      · exact ⟨0, by norm_num, by with_unfolding_all decide⟩
      · exact ⟨0, by norm_num, by with_unfolding_all decide⟩)
